import Mathlib

/-!
Pull-request decoding, comment aggregation and request building of go-bitbucket.

A shallow embedding of `pullrequests.go`: the item decoders
(`decodePullRequests`, `decodePullRequestsComments`), the list decoders
(`decodePullRequestsList`, `decodePullRequestsCommentsList`), the comment
aggregation (`appendComments`, `ListObjs`), the listing request
(`PullRequests.List`) and the request builders (`buildPullRequestBody`,
`buildPullRequestCommentBody`).

Conventions of the embedding

* A Go `interface{}` holding decoded JSON is a `JSON` value.  A JSON number is
  a `float64`; every finite `float64` is a rational, so numbers are `ℚ`.
* A Go `map[string]interface{}` is an association list.  Keys of a Go map are
  distinct; `JSONMap.index` returns the first entry of a key.  The order of
  the list stands for the order in which the Go runtime happens to iterate
  over the map (only the case-insensitive key search of mapstructure looks at
  it).
* A Go function returning `(*T, error)` returns an `Outcome T`: `ok v` for
  `(&v, nil)`, `error e` for `(nil, e)`, `panic` for a run-time panic (a
  failed unchecked type assertion).
* `int` and `int64` are 64 bits wide.
* Declarations of the package that live outside `pullrequests.go` (the types
  `User`, `Repository`, `RepositoryBranch`, the layout used by
  `stringToTimeHookFunc`, the transport of `Client`) are parameters, bundled
  in `Env` and `Client`.  The helper `DecodeError` and the hook
  `stringToTimeHookFunc`, also declared elsewhere, follow the specification.
* `github.com/mitchellh/mapstructure` is embedded as configured by the
  source: a `DecoderConfig` with only `Result` and `DecodeHook` set, so
  `WeaklyTypedInput`, `ZeroFields`, `ErrorUnused` and `Squash` are off and
  field names are matched with `strings.EqualFold`.
-/

namespace Bitbucket

/-! ## Values -/

/-- Decoded JSON, as `encoding/json` stores it in an `interface{}`. -/
inductive JSON where
  | null
  | bool (b : Bool)
  | num (x : ℚ)
  | str (s : String)
  | arr (xs : List JSON)
  | obj (kvs : List (String × JSON))

/-- A `map[string]interface{}`. -/
abbrev JSONMap := List (String × JSON)

/-- Go map indexing `m[k]`; `none` is the nil interface of a missing key. -/
def JSONMap.index (m : JSONMap) (k : String) : Option JSON :=
  List.lookup k m

/-- Go errors that the package produces or passes on. -/
inductive GoError where
  /-- An `errors.New(msg)` value. -/
  | errorsNew (msg : String)
  /-- The error built by `DecodeError` from an error envelope. -/
  | remoteAPI (msg : String)
  /-- A `*mapstructure.Error`: the accumulated per-field messages. -/
  | mapstructure (errors : List String)
  /-- An error of the transport or of `net/url`, passed on unchanged. -/
  | transport (msg : String)
  deriving DecidableEq, Repr

/-- Result of a Go function returning `(*T, error)`. -/
inductive Outcome (α : Type) where
  /-- The call returned `(&v, nil)`. -/
  | ok (v : α)
  /-- The call returned `(nil, e)`. -/
  | error (e : GoError)
  /-- The call panicked. -/
  | panic (msg : String)

/-! ## Numeric conversion -/

/-- Smallest `int64`. -/
def minInt64 : Int := -(2 ^ 63)

/-- Largest `int64`. -/
def maxInt64 : Int := 2 ^ 63 - 1

/-- Go conversion `int(f)` / `int64(f)` of a `float64`: the fraction is
discarded (truncation towards zero).  For a value outside the range of the
target the Go specification leaves the result to the implementation; amd64
yields the smallest `int64`, which is what is returned here. -/
def floatToInt (f : ℚ) : Int :=
  let t := Int.tdiv f.num f.den
  if minInt64 ≤ t ∧ t ≤ maxInt64 then t else minInt64

/-! ## Parameters: declarations outside `pullrequests.go` -/

/-- The declarations used by the decoders whose source is not part of
`pullrequests.go`: `time.Time`, the struct types `User`, `RepositoryBranch`
and `Repository` with the way mapstructure decodes a non-nil value into a
zero value of each, and the parser behind `stringToTimeHookFunc`. -/
structure Env where
  /-- Go `time.Time`. -/
  Time : Type
  /-- The struct `User`. -/
  User : Type
  /-- The struct `RepositoryBranch`. -/
  RepositoryBranch : Type
  /-- The struct `Repository`. -/
  Repository : Type
  /-- The zero `time.Time`. -/
  zeroTime : Time
  /-- The zero `User`. -/
  zeroUser : User
  /-- The zero `RepositoryBranch`. -/
  zeroRepositoryBranch : RepositoryBranch
  /-- The zero `Repository`. -/
  zeroRepository : Repository
  /-- The call `time.Parse(layout, s)` of the hook; `none` is a parse error. -/
  parseTime : String → Option Time
  /-- Decoding of a non-nil value into a `User`. -/
  decodeUser : JSON → Except (List String) User
  /-- Decoding of a non-nil value into a `RepositoryBranch`. -/
  decodeRepositoryBranch : JSON → Except (List String) RepositoryBranch
  /-- Decoding of a non-nil value into a `Repository`. -/
  decodeRepository : JSON → Except (List String) Repository

/-! ## mapstructure -/

/-- Lower-case form of a rune under Unicode simple case folding, for the
runes whose folding orbit contains an ASCII letter: `A`-`Z`, the Kelvin sign
U+212A (orbit of `k`) and the long s U+017F (orbit of `s`). -/
def foldRune (c : Char) : Char :=
  if 65 ≤ c.toNat ∧ c.toNat ≤ 90 then Char.ofNat (c.toNat + 32)
  else if c.toNat = 8490 then 'k'
  else if c.toNat = 383 then 's'
  else c

/-- Rune-by-rune comparison of `strings.EqualFold`. -/
def equalFoldRunes : List Char → List Char → Bool
  | [], [] => true
  | a :: s, b :: t => (foldRune a == foldRune b) && equalFoldRunes s t
  | _, _ => false

/-- The default `MatchName` of mapstructure, `strings.EqualFold(mapKey,
fieldName)`.  Exact whenever one side is ASCII, as every field name is. -/
def matchName (mapKey fieldName : String) : Bool :=
  equalFoldRunes mapKey.data fieldName.data

/-- The value mapstructure decodes into the struct field called `fieldName`
(its `mapstructure` tag, else its Go name): the entry under exactly that key
or, when there is none, the first entry met whose key matches ignoring case;
`none` when no key matches, and the field is then left untouched. -/
def fieldData (m : JSONMap) (fieldName : String) : Option JSON :=
  match JSONMap.index m fieldName with
  | some v => some v
  | none =>
    match m.find? (fun kv => matchName kv.1 fieldName) with
    | some kv => some kv.2
    | none => none

/-- The method `decodeString` without weak typing: only a string converts. -/
def decodeString (name : String) : JSON → Except (List String) String
  | .str s => .ok s
  | _ => .error [name ++ " expected type string, got unconvertible type"]

/-- The method `decodeBool` without weak typing: only a bool converts. -/
def decodeBool (name : String) : JSON → Except (List String) Bool
  | .bool b => .ok b
  | _ => .error [name ++ " expected type bool, got unconvertible type"]

/-- The method `decodeInt` without weak typing: a `float64` converts through
`int64(f)`; nothing else that JSON decoding produces does. -/
def decodeInt (name : String) : JSON → Except (List String) Int
  | .num f => .ok (floatToInt f)
  | _ => .error [name ++ " expected type int, got unconvertible type"]

/-- The method `decodePtr` on a nil pointer field and non-nil data: a fresh
element is decoded and the pointer set to it; on failure the pointer stays
nil. -/
def decodePtr {β : Type} (dec : JSON → Except (List String) β) (data : JSON) :
    Except (List String) (Option β) :=
  match dec data with
  | .ok b => .ok (some b)
  | .error es => .error es

/-- The messages a decode step appends to the error list of its struct. -/
def errorsOf {β : Type} (r : Except (List String) β) : List String :=
  match r with
  | .ok _ => []
  | .error es => es

/-- The value a field holds after its decode step; `zero` when it failed. -/
def valueOf {β : Type} (r : Except (List String) β) (zero : β) : β :=
  match r with
  | .ok b => b
  | .error _ => zero

/-- One iteration of the field loop of `decodeStructFromMap`, on a field that
holds its zero value: no matching key leaves the field alone, and so does a
nil value (JSON `null`), since `decode` returns at once on nil input;
anything else is decoded by `dec`. -/
def decodeField {β : Type} (dec : JSON → Except (List String) β) (zero : β)
    (data : Option JSON) : Except (List String) β :=
  match data with
  | none => .ok zero
  | some .null => .ok zero
  | some v => dec v

/-- Decoding of the elements of a slice, in order: a nil element keeps the
zero value; a failing element contributes its messages and the loop goes
on. -/
def decodeElems {β : Type} (dec : JSON → Except (List String) β) (zero : β) :
    List JSON → List β × List String
  | [] => ([], [])
  | x :: xs =>
    let r := decodeField dec zero (some x)
    let rest := decodeElems dec zero xs
    (valueOf r zero :: rest.1, errorsOf r ++ rest.2)

/-- The method `decodeSlice` without weak typing: the data must be an array;
every element is decoded and the messages are accumulated. -/
def decodeSlice {β : Type} (name : String) (dec : JSON → Except (List String) β)
    (zero : β) : JSON → Except (List String) (List β)
  | .arr xs =>
    let r := decodeElems dec zero xs
    if r.2 = [] then .ok r.1 else .error r.2
  | _ => .error [name ++ ": source data must be an array or slice"]

/-- Modelled from the spec: `stringToTimeHookFunc` is declared outside
`pullrequests.go`.  The spec (Item Decoder) says that timestamp fields "are
read from string values; the string must parse under the source timestamp
format" and that "a present-but-unparsable timestamp string causes the whole
decode to fail".  So, called for a target of type `time.Time`, the hook
replaces a string by its parse (`inl`) or fails, and hands any other data on
unchanged (`inr`); for any other target it hands the data on unchanged, which
is why the other decoders take the raw data. -/
def stringToTimeHookFunc (E : Env) (data : JSON) : Except (List String) (E.Time ⊕ JSON) :=
  match data with
  | .str s =>
    match E.parseTime s with
    | some t => .ok (.inl t)
    | none => .error ["cannot parse as a time"]
  | other => .ok (.inr other)

/-- The method `decode` for a target of type `time.Time`: the hook runs
first and its failure fails the field; a `time.Time` coming out of the hook
is stored as it is; a map is decoded field by field into the struct, whose
fields are all unexported, so the zero time is kept; any other value is not
a map and fails. -/
def decodeTime (E : Env) (name : String) (data : JSON) : Except (List String) E.Time :=
  match stringToTimeHookFunc E data with
  | .error es => .error (es.map (fun e => "error decoding " ++ name ++ ": " ++ e))
  | .ok (.inl t) => .ok t
  | .ok (.inr (.obj _)) => .ok E.zeroTime
  | .ok (.inr _) => .error [name ++ " expected a map"]

/-! ## Entities -/

/-- The struct `PullRequestCommentsContent`. -/
structure PullRequestCommentsContent where
  Raw : String
  Markup : String
  Html : String
  deriving DecidableEq, Repr

/-- The struct `PullRequestsComments`. -/
structure PullRequestsComments where
  Owner : String
  RepoSlug : String
  PullRequestID : Int
  Content : PullRequestCommentsContent
  CommentId : Int
  Parent : Option Int
  deriving DecidableEq, Repr

/-- The struct `PullRequestsCommentsList`. -/
structure PullRequestsCommentsList where
  Page : Int
  Pagelen : Int
  MaxDepth : Int
  Size : Int
  Next : String
  Items : List PullRequestsComments
  deriving DecidableEq, Repr

/-- The struct `PullRequests`, without its unexported client pointer `c`,
which no decoder can set. -/
structure PullRequests (E : Env) where
  ID : Int
  Title : String
  Author : E.User
  Description : String
  CloseSourceBranch : Bool
  SourceBranch : E.RepositoryBranch
  SourceRepository : E.Repository
  SourceCommit : String
  DestinationBranch : E.RepositoryBranch
  DestinationRepository : E.Repository
  DestinationCommit : String
  Reviewers : List E.User
  State : String
  Draft : Bool
  Commit : String
  Comments : List PullRequestsComments
  CreatedOnTime : Option E.Time
  UpdatedOnTime : Option E.Time

/-- The struct `PullRequestsList`. -/
structure PullRequestsList (E : Env) where
  Page : Int
  Pagelen : Int
  MaxDepth : Int
  Size : Int
  Next : String
  Items : List (PullRequests E)

/-- The zero value of `PullRequestCommentsContent`. -/
def zeroContent : PullRequestCommentsContent :=
  { Raw := "", Markup := "", Html := "" }

/-- The zero value of `PullRequestsComments`. -/
def zeroComments : PullRequestsComments :=
  { Owner := "", RepoSlug := "", PullRequestID := 0, Content := zeroContent,
    CommentId := 0, Parent := none }

/-! ## Struct decoding -/

/-- The method `decodeStruct` for `PullRequestCommentsContent`.  Its struct
tags carry no `mapstructure` key, so the fields are matched by their Go
names `Raw`, `Markup`, `Html`. -/
def decodeContentStruct : JSON → Except (List String) PullRequestCommentsContent
  | .obj m =>
    let rRaw := decodeField (decodeString "Raw") "" (fieldData m "Raw")
    let rMarkup := decodeField (decodeString "Markup") "" (fieldData m "Markup")
    let rHtml := decodeField (decodeString "Html") "" (fieldData m "Html")
    let errors := errorsOf rRaw ++ errorsOf rMarkup ++ errorsOf rHtml
    if errors = [] then
      .ok { Raw := valueOf rRaw "", Markup := valueOf rMarkup "", Html := valueOf rHtml "" }
    else .error errors
  | _ => .error ["Content expected a map"]

/-- The method `decodeStructFromMap` for `PullRequestsComments`: each field,
in declaration order, is looked up and decoded; the messages are accumulated
and any message fails the decode.  `CommentId` is tagged `id`. -/
def decodeCommentsMap (m : JSONMap) : Except (List String) PullRequestsComments :=
  let rOwner := decodeField (decodeString "Owner") "" (fieldData m "Owner")
  let rRepoSlug := decodeField (decodeString "RepoSlug") "" (fieldData m "RepoSlug")
  let rPullRequestID := decodeField (decodeInt "PullRequestID") 0 (fieldData m "PullRequestID")
  let rContent := decodeField decodeContentStruct zeroContent (fieldData m "Content")
  let rCommentId := decodeField (decodeInt "id") 0 (fieldData m "id")
  let rParent := decodeField (decodePtr (decodeInt "Parent")) none (fieldData m "Parent")
  let errors := errorsOf rOwner ++ errorsOf rRepoSlug ++ errorsOf rPullRequestID
    ++ errorsOf rContent ++ errorsOf rCommentId ++ errorsOf rParent
  if errors = [] then
    .ok { Owner := valueOf rOwner "", RepoSlug := valueOf rRepoSlug "",
          PullRequestID := valueOf rPullRequestID 0,
          Content := valueOf rContent zeroContent,
          CommentId := valueOf rCommentId 0, Parent := valueOf rParent none }
  else .error errors

/-- The method `decodeStruct` for `PullRequestsComments`: the data must be a
map. -/
def decodeCommentsStruct : JSON → Except (List String) PullRequestsComments
  | .obj m => decodeCommentsMap m
  | _ => .error ["Comments expected a map"]

/-- The method `decodeStructFromMap` for `PullRequests`: each exported field,
in declaration order, is looked up and decoded; the messages are accumulated
and any message fails the decode.  Only `CreatedOnTime` and `UpdatedOnTime`
carry a tag (`created_on`, `updated_on`); every other field is matched by
its Go name. -/
def decodePullRequestsMap (E : Env) (m : JSONMap) : Except (List String) (PullRequests E) :=
  let rID := decodeField (decodeInt "ID") 0 (fieldData m "ID")
  let rTitle := decodeField (decodeString "Title") "" (fieldData m "Title")
  let rAuthor := decodeField E.decodeUser E.zeroUser (fieldData m "Author")
  let rDescription := decodeField (decodeString "Description") "" (fieldData m "Description")
  let rCloseSourceBranch :=
    decodeField (decodeBool "CloseSourceBranch") false (fieldData m "CloseSourceBranch")
  let rSourceBranch :=
    decodeField E.decodeRepositoryBranch E.zeroRepositoryBranch (fieldData m "SourceBranch")
  let rSourceRepository :=
    decodeField E.decodeRepository E.zeroRepository (fieldData m "SourceRepository")
  let rSourceCommit := decodeField (decodeString "SourceCommit") "" (fieldData m "SourceCommit")
  let rDestinationBranch :=
    decodeField E.decodeRepositoryBranch E.zeroRepositoryBranch (fieldData m "DestinationBranch")
  let rDestinationRepository :=
    decodeField E.decodeRepository E.zeroRepository (fieldData m "DestinationRepository")
  let rDestinationCommit :=
    decodeField (decodeString "DestinationCommit") "" (fieldData m "DestinationCommit")
  let rReviewers :=
    decodeField (decodeSlice "Reviewers" E.decodeUser E.zeroUser) [] (fieldData m "Reviewers")
  let rState := decodeField (decodeString "State") "" (fieldData m "State")
  let rDraft := decodeField (decodeBool "Draft") false (fieldData m "Draft")
  let rCommit := decodeField (decodeString "Commit") "" (fieldData m "Commit")
  let rComments :=
    decodeField (decodeSlice "Comments" decodeCommentsStruct zeroComments) []
      (fieldData m "Comments")
  let rCreatedOnTime :=
    decodeField (decodePtr (decodeTime E "created_on")) none (fieldData m "created_on")
  let rUpdatedOnTime :=
    decodeField (decodePtr (decodeTime E "updated_on")) none (fieldData m "updated_on")
  let errors := errorsOf rID ++ errorsOf rTitle ++ errorsOf rAuthor ++ errorsOf rDescription
    ++ errorsOf rCloseSourceBranch ++ errorsOf rSourceBranch ++ errorsOf rSourceRepository
    ++ errorsOf rSourceCommit ++ errorsOf rDestinationBranch ++ errorsOf rDestinationRepository
    ++ errorsOf rDestinationCommit ++ errorsOf rReviewers ++ errorsOf rState ++ errorsOf rDraft
    ++ errorsOf rCommit ++ errorsOf rComments ++ errorsOf rCreatedOnTime
    ++ errorsOf rUpdatedOnTime
  if errors = [] then
    .ok { ID := valueOf rID 0, Title := valueOf rTitle "",
          Author := valueOf rAuthor E.zeroUser,
          Description := valueOf rDescription "",
          CloseSourceBranch := valueOf rCloseSourceBranch false,
          SourceBranch := valueOf rSourceBranch E.zeroRepositoryBranch,
          SourceRepository := valueOf rSourceRepository E.zeroRepository,
          SourceCommit := valueOf rSourceCommit "",
          DestinationBranch := valueOf rDestinationBranch E.zeroRepositoryBranch,
          DestinationRepository := valueOf rDestinationRepository E.zeroRepository,
          DestinationCommit := valueOf rDestinationCommit "",
          Reviewers := valueOf rReviewers [],
          State := valueOf rState "", Draft := valueOf rDraft false,
          Commit := valueOf rCommit "",
          Comments := valueOf rComments [],
          CreatedOnTime := valueOf rCreatedOnTime none,
          UpdatedOnTime := valueOf rUpdatedOnTime none }
  else .error errors

/-! ## The decoders of `pullrequests.go` -/

/-- The comparison `prMap["type"] == "error"` of an interface value with a
string constant: true exactly when the value is the string `error`. -/
def isErrorMarker (m : JSONMap) : Bool :=
  match JSONMap.index m "type" with
  | some (.str s) => s == "error"
  | _ => false

/-- Modelled from the spec: `DecodeError` is declared outside
`pullrequests.go`.  The spec (Item Decoder) says that decoding an object
marked `type: error` "fails with a RemoteAPIError carrying the nested error
message/payload": the result is always an error, and it carries the string
under `error.message` (empty when there is none). -/
def DecodeError (e : JSONMap) : GoError :=
  match JSONMap.index e "error" with
  | some (.obj inner) =>
    match JSONMap.index inner "message" with
    | some (.str msg) => .remoteAPI msg
    | _ => .remoteAPI ""
  | _ => .remoteAPI ""

/-- The function `decodePullRequests`.  The type assertion on its argument is
unchecked, so anything but a map panics.  `mapstructure.NewDecoder` cannot
fail here, its `Result` being a pointer. -/
def decodePullRequests (E : Env) (pullRequestResp : JSON) : Outcome (PullRequests E) :=
  match pullRequestResp with
  | .obj prMap =>
    if isErrorMarker prMap then .error (DecodeError prMap)
    else
      match decodePullRequestsMap E prMap with
      | .ok pullRequests => .ok pullRequests
      | .error errs => .error (.mapstructure errs)
  | _ => .panic "interface conversion: interface is not map[string]interface {}"

/-- The function `decodePullRequestsComments`.  The struct has no
`time.Time` field, so the hook never fires. -/
def decodePullRequestsComments (pullRequestResp : JSON) : Outcome PullRequestsComments :=
  match pullRequestResp with
  | .obj prCommentMap =>
    if isErrorMarker prCommentMap then .error (DecodeError prCommentMap)
    else
      match decodeCommentsMap prCommentMap with
      | .ok pullRequestsComments => .ok pullRequestsComments
      | .error errs => .error (.mapstructure errs)
  | _ => .panic "interface conversion: interface is not map[string]interface {}"

/-- The loop over the entries of `values` in both list decoders, started
with the items collected so far: an entry that decodes is appended, an entry
whose decode returns an error is skipped, a panic ends the call. -/
def decodeEntries {α : Type} (dec : JSON → Outcome α) : List JSON → List α → Outcome (List α)
  | [], acc => .ok acc
  | entry :: rest, acc =>
    match dec entry with
    | .ok item => decodeEntries dec rest (acc ++ [item])
    | .error _ => decodeEntries dec rest acc
    | .panic msg => .panic msg

/-- The checked assertion `m[key].(float64)` followed by the `!ok` default
and the conversion `int(...)` of the list decoders. -/
def pageField (m : JSONMap) (key : String) : Int :=
  match JSONMap.index m key with
  | some (.num f) => floatToInt f
  | _ => floatToInt 0

/-- The function `decodePullRequestsList`.  The assertion on the response is
checked; the one on `values` is not, so a missing or non-array `values`
panics. -/
def decodePullRequestsList (E : Env) (prResponse : JSON) : Outcome (PullRequestsList E) :=
  match prResponse with
  | .obj prResponseMap =>
    match JSONMap.index prResponseMap "values" with
    | some (.arr prArray) =>
      match decodeEntries (decodePullRequests E) prArray [] with
      | .ok prs =>
        .ok { Page := pageField prResponseMap "page",
              Pagelen := pageField prResponseMap "pagelen",
              MaxDepth := 0,
              Size := pageField prResponseMap "size",
              Next := "",
              Items := prs }
      | .error e => .error e
      | .panic msg => .panic msg
    | _ => .panic "interface conversion: interface is not []interface {}"
  | _ => .error (.errorsNew "Not a valid format")

/-- The function `decodePullRequestsCommentsList`, the same code over
`decodePullRequestsComments`. -/
def decodePullRequestsCommentsList (prCommentsResponse : JSON) :
    Outcome PullRequestsCommentsList :=
  match prCommentsResponse with
  | .obj prCommentsResponseMap =>
    match JSONMap.index prCommentsResponseMap "values" with
    | some (.arr prCommentsArray) =>
      match decodeEntries decodePullRequestsComments prCommentsArray [] with
      | .ok prCommentsList =>
        .ok { Page := pageField prCommentsResponseMap "page",
              Pagelen := pageField prCommentsResponseMap "pagelen",
              MaxDepth := 0,
              Size := pageField prCommentsResponseMap "size",
              Next := "",
              Items := prCommentsList }
      | .error e => .error e
      | .panic msg => .panic msg
    | _ => .panic "interface conversion: interface is not []interface {}"
  | _ => .error (.errorsNew "Not a valid format")

/-! ## Requests and the transport -/

/-- Go `url.Values`: the values of each query parameter. -/
abbrev Values := List (String × List String)

/-- The method `Values.Set`: the key is bound to the single value given,
whatever it was bound to before. -/
def Values.Set (v : Values) (key value : String) : Values :=
  (key, [value]) :: v.filter (fun kv => kv.1 != key)

/-- The method `Values.Get` on every value of a key, as `v[key]`. -/
def Values.all (v : Values) (key : String) : List String :=
  (v.filter (fun kv => kv.1 == key)).flatMap (fun kv => kv.2)

/-- A URL string as the facade builds it: either a string that never went
through `url.Parse`, or the result `parsed.String()` of parsing the string
`s` and replacing its query by `query.Encode()`. -/
inductive URLStr where
  | raw (s : String)
  | built (s : String) (query : Values)

/-- A call of the transport. -/
structure Request where
  method : String
  url : URLStr
  body : String

/-- The part of `Client` used by the pull-request facade; its source is not
part of `pullrequests.go`.  The answer of the transport may depend on the
requests made before, which are all there is to the state of the world. -/
structure Client where
  /-- The result of `GetApiBaseURL()`. -/
  apiBaseURL : String
  /-- The call `url.Parse(s)` followed by `Query()`, on a string built from the
  base URL: a parse error, or the query parameters the string carries. -/
  urlParse : String → Except GoError Values
  /-- The method `executePaginated`, given the requests made so far. -/
  executePaginated : List Request → Request → Except GoError JSON

/-- The options struct `PullRequestsOptions`, with the fields the source
reads. -/
structure PullRequestsOptions where
  Owner : String
  RepoSlug : String
  Query : String
  /-- The field `Sort` of the source; `Sort` is reserved in Lean. -/
  SortKey : String
  States : List String

/-- The options struct `PullRequestCommentOptions`, with the fields the
source reads. -/
structure PullRequestCommentOptions where
  Owner : String
  RepoSlug : String
  PullRequestID : String
  Content : String
  CommentId : String
  Parent : Option Int

/-- The function `shouldEscape` of `net/url` in mode `encodePathSegment`, on
a byte: letters, digits, `-_.~` and `$&+:=@` are kept. -/
def shouldEscape (c : Nat) : Bool :=
  if (97 ≤ c ∧ c ≤ 122) ∨ (65 ≤ c ∧ c ≤ 90) ∨ (48 ≤ c ∧ c ≤ 57) then false
  else if c = 45 ∨ c = 95 ∨ c = 46 ∨ c = 126 then false
  else if c = 36 ∨ c = 38 ∨ c = 43 ∨ c = 58 ∨ c = 61 ∨ c = 64 then false
  else true

/-- The hexadecimal digit of `n`, upper case. -/
def upperhex (n : Nat) : Char :=
  "0123456789ABCDEF".data.getD n '0'

/-- The escape of one byte of a path segment. -/
def escapeByte (c : Nat) : List Char :=
  if shouldEscape c then ['%', upperhex (c / 16), upperhex (c % 16)] else [Char.ofNat c]

/-- Go `url.PathEscape`, over the UTF-8 bytes of the string. -/
def PathEscape (s : String) : String :=
  String.mk ((s.data.flatMap String.utf8EncodeChar).flatMap (fun b => escapeByte b.toNat))

/-- The block `url.Parse`, `Query`, edit, `Encode`, `String` that the facade
runs to change the query of `urlStr`.  A string that was built by such a
block parses back to the query it was built with. -/
def editQuery (c : Client) (urlStr : URLStr) (edit : Values → Values) : Except GoError URLStr :=
  match urlStr with
  | .raw s =>
    match c.urlParse s with
    | .ok query => .ok (.built s (edit query))
    | .error err => .error err
  | .built s query => .ok (.built s (edit query))

/-- The method `PullRequests.List`: the URL is built, the `state`, `q` and
`sort` parameters are set when given, and the transport is called. -/
def PullRequests_List (c : Client) (po : PullRequestsOptions) (log : List Request) :
    Except GoError JSON × List Request :=
  let urlStr : URLStr := .raw (c.apiBaseURL ++ "/repositories/" ++ PathEscape po.Owner ++ "/"
    ++ PathEscape po.RepoSlug ++ "/pullrequests/")
  let afterStates :=
    if po.States ≠ [] then
      editQuery c urlStr (fun query => po.States.foldl (fun q state => q.Set "state" state) query)
    else .ok urlStr
  match afterStates with
  | .error err => (.error err, log)
  | .ok urlStr =>
    let afterQuery :=
      if po.Query ≠ "" then editQuery c urlStr (fun query => query.Set "q" po.Query)
      else .ok urlStr
    match afterQuery with
    | .error err => (.error err, log)
    | .ok urlStr =>
      let afterSort :=
        if po.SortKey ≠ "" then editQuery c urlStr (fun query => query.Set "sort" po.SortKey)
        else .ok urlStr
      match afterSort with
      | .error err => (.error err, log)
      | .ok urlStr =>
        let req : Request := { method := "GET", url := urlStr, body := "" }
        (c.executePaginated log req, log ++ [req])

/-- The method `PullRequests.ListComments`. -/
def ListComments (c : Client) (po : PullRequestCommentOptions) (log : List Request) :
    Except GoError JSON × List Request :=
  let urlStr : URLStr := .raw (c.apiBaseURL ++ "/repositories/" ++ po.Owner ++ "/" ++ po.RepoSlug
    ++ "/pullrequests/" ++ po.PullRequestID ++ "/comments/")
  let req : Request := { method := "GET", url := urlStr, body := "" }
  (c.executePaginated log req, log ++ [req])

/-- The method `PullRequests.ListCommentsObjs`. -/
def ListCommentsObjs (c : Client) (po : PullRequestCommentOptions) (log : List Request) :
    Outcome PullRequestsCommentsList × List Request :=
  match ListComments c po log with
  | (.error err, log1) => (.error err, log1)
  | (.ok commentsList, log1) =>
    match decodePullRequestsCommentsList commentsList with
    | .error err => (.error err, log1)
    | .panic msg => (.panic msg, log1)
    | .ok commentsListObjs => (.ok commentsListObjs, log1)

/-- The options that `appendComments` builds for the pull request `pr`;
`strconv.Itoa` is the decimal rendering. -/
def commentOptsFor {E : Env} (po : PullRequestsOptions) (pr : PullRequests E) :
    PullRequestCommentOptions :=
  { Owner := po.Owner, RepoSlug := po.RepoSlug, PullRequestID := toString pr.ID,
    Content := "", CommentId := "", Parent := none }

/-- The loop of `appendComments` over the items of the list.  The loop
variable `pr` of `for _, pr := range (*prList).Items` is a copy of the
element: the assignment `pr.Comments = append(...)` changes the copy, which
is dropped at the end of the iteration, and nothing is stored back in
`Items`.  The loop returns at the first fetch that fails. -/
def appendCommentsLoop {E : Env} (c : Client) (po : PullRequestsOptions) :
    List (PullRequests E) → List Request → Outcome Unit × List Request
  | [], log => (.ok (), log)
  | pr :: rest, log =>
    match ListCommentsObjs c (commentOptsFor po pr) log with
    | (.error err, log1) => (.error err, log1)
    | (.panic msg, log1) => (.panic msg, log1)
    | (.ok prCommentsList, log1) =>
      let _pr : PullRequests E := { pr with Comments := pr.Comments ++ prCommentsList.Items }
      appendCommentsLoop c po rest log1

/-- The method `PullRequests.appendComments`: its error (`ok ()` for nil),
the requests made, and the list that `*prList` points to when it returns. -/
def appendComments {E : Env} (c : Client) (po : PullRequestsOptions)
    (prList : PullRequestsList E) (log : List Request) :
    Outcome Unit × List Request × PullRequestsList E :=
  let r := appendCommentsLoop c po prList.Items log
  (r.1, r.2, prList)

/-- The method `PullRequests.ListObjs`. -/
def ListObjs (E : Env) (c : Client) (po : PullRequestsOptions) (log : List Request) :
    Outcome (PullRequestsList E) × List Request :=
  match PullRequests_List c po log with
  | (.error err, log1) => (.error err, log1)
  | (.ok res, log1) =>
    match decodePullRequestsList E res with
    | .error err => (.error err, log1)
    | .panic msg => (.panic msg, log1)
    | .ok pullRequestListObjs =>
      match appendComments c po pullRequestListObjs log1 with
      | (.error err, log2, _) => (.error err, log2)
      | (.panic msg, log2, _) => (.panic msg, log2)
      | (.ok _, log2, pullRequestListObjs) => (.ok pullRequestListObjs, log2)

/-! ## The request builder -/

/-- The options struct `PullRequestOptions`, with the fields the source
reads.  The field `Sort` of the source is `SortKey` here. -/
structure PullRequestOptions where
  Owner : String
  RepoSlug : String
  ID : String
  Commit : String
  Query : String
  SortKey : String
  Reviewers : List String
  SourceBranch : String
  SourceRepository : String
  DestinationBranch : String
  DestinationCommit : String
  Title : String
  Description : String
  Message : String
  CloseSourceBranch : Bool
  Draft : Bool

/-- Go map assignment `m[k] = v`: the value of an existing key is replaced,
a new key is added.  A Go map has no order; the members are kept in the order
of their first assignment. -/
def JSONMap.set (m : JSONMap) (k : String) (v : JSON) : JSONMap :=
  match m with
  | [] => [(k, v)]
  | (k1, v1) :: rest => if k1 = k then (k, v) :: rest else (k1, v1) :: JSONMap.set rest k v

/-- The statement `body[outer].(map[string]interface{})[inner] = v`: the map
stored under `outer` gets the member.  The type assertion is unchecked and
panics when `body[outer]` is not a map. -/
def setNested (body : JSONMap) (outer inner : String) (v : JSON) : Outcome JSONMap :=
  match JSONMap.index body outer with
  | some (.obj nested) => .ok (JSONMap.set body outer (.obj (JSONMap.set nested inner v)))
  | _ => .panic "interface conversion: interface is not map[string]interface {}"

/-- Sequencing of two steps of a Go function: an error or a panic of the
first ends the function. -/
def Outcome.andThen {α β : Type} (r : Outcome α) (next : α → Outcome β) : Outcome β :=
  match r with
  | .ok v => next v
  | .error e => .error e
  | .panic msg => .panic msg

/-- Go `json.Marshal` on a value made of maps with string keys, slices,
strings, booleans and integers.  Such a value always marshals, so the error
is nil.  The text returned is represented by the document it spells: the
value itself, a `*int` being written as the number it points to.  Go strings
are taken to be valid UTF-8, as the strings of this file are. -/
def jsonMarshal (v : JSON) : Outcome JSON :=
  .ok v

/-- The method `buildPullRequestBody`.  The slice made for the reviewers and
filled index by index is the list of their `uuid` objects. -/
def buildPullRequestBody (po : PullRequestOptions) : Outcome JSON :=
  let body : JSONMap := []
  let body := JSONMap.set body "source" (.obj [])
  let body := JSONMap.set body "destination" (.obj [])
  let body := JSONMap.set body "reviewers" (.arr [])
  let body := JSONMap.set body "title" (.str "")
  let body := JSONMap.set body "description" (.str "")
  let body := JSONMap.set body "message" (.str "")
  let body := JSONMap.set body "close_source_branch" (.bool false)
  let body :=
    if po.Reviewers.length > 0 then
      JSONMap.set body "reviewers"
        (.arr (po.Reviewers.map (fun uuid => JSON.obj [("uuid", .str uuid)])))
    else body
  (if po.SourceBranch ≠ "" then
      setNested body "source" "branch" (.obj [("name", .str po.SourceBranch)])
    else .ok body).andThen fun body =>
  (if po.SourceRepository ≠ "" then
      setNested body "source" "repository" (.obj [("full_name", .str po.SourceRepository)])
    else .ok body).andThen fun body =>
  (if po.DestinationBranch ≠ "" then
      setNested body "destination" "branch" (.obj [("name", .str po.DestinationBranch)])
    else .ok body).andThen fun body =>
  (if po.DestinationCommit ≠ "" then
      setNested body "destination" "commit" (.obj [("hash", .str po.DestinationCommit)])
    else .ok body).andThen fun body =>
  let body := if po.Title ≠ "" then JSONMap.set body "title" (.str po.Title) else body
  let body :=
    if po.Description ≠ "" then JSONMap.set body "description" (.str po.Description) else body
  let body := if po.Message ≠ "" then JSONMap.set body "message" (.str po.Message) else body
  let body :=
    if po.CloseSourceBranch || !po.CloseSourceBranch then
      JSONMap.set body "close_source_branch" (.bool po.CloseSourceBranch)
    else body
  let body := if po.Draft then JSONMap.set body "draft" (.bool true) else body
  jsonMarshal (.obj body)

/-- The method `buildPullRequestCommentBody`. -/
def buildPullRequestCommentBody (co : PullRequestCommentOptions) : Outcome JSON :=
  let body : JSONMap := []
  let body := JSONMap.set body "content" (.obj [("raw", .str co.Content)])
  let body :=
    match co.Parent with
    | some parent => JSONMap.set body "parent" (.obj [("id", .num parent)])
    | none => body
  jsonMarshal (.obj body)

/-! ## Vocabulary of the statements -/

/-- The item of a successful call, `none` for an error or a panic. -/
def Outcome.item {α : Type} : Outcome α → Option α
  | .ok v => some v
  | .error _ => none
  | .panic _ => none

/-- The messages raised by the decode step of one field: none when no key
matches or the value is nil, else those of the field decoder. -/
def stepMessages {β : Type} (dec : JSON → Except (List String) β) (data : Option JSON) :
    List String :=
  match data with
  | none => []
  | some .null => []
  | some v => errorsOf (dec v)

/-- The names under which mapstructure looks up the exported fields of
`PullRequests`, in declaration order. -/
def pullRequestsFields : List String :=
  ["ID", "Title", "Author", "Description", "CloseSourceBranch", "SourceBranch",
   "SourceRepository", "SourceCommit", "DestinationBranch", "DestinationRepository",
   "DestinationCommit", "Reviewers", "State", "Draft", "Commit", "Comments",
   "created_on", "updated_on"]

/-- The messages that decoding the map `m` into a `PullRequests` raises for
the field looked up as `field`. -/
def pullRequestsMessages (E : Env) (m : JSONMap) (field : String) : List String :=
  if field = "ID" then stepMessages (decodeInt "ID") (fieldData m "ID")
  else if field = "Title" then stepMessages (decodeString "Title") (fieldData m "Title")
  else if field = "Author" then stepMessages E.decodeUser (fieldData m "Author")
  else if field = "Description" then
    stepMessages (decodeString "Description") (fieldData m "Description")
  else if field = "CloseSourceBranch" then
    stepMessages (decodeBool "CloseSourceBranch") (fieldData m "CloseSourceBranch")
  else if field = "SourceBranch" then
    stepMessages E.decodeRepositoryBranch (fieldData m "SourceBranch")
  else if field = "SourceRepository" then
    stepMessages E.decodeRepository (fieldData m "SourceRepository")
  else if field = "SourceCommit" then
    stepMessages (decodeString "SourceCommit") (fieldData m "SourceCommit")
  else if field = "DestinationBranch" then
    stepMessages E.decodeRepositoryBranch (fieldData m "DestinationBranch")
  else if field = "DestinationRepository" then
    stepMessages E.decodeRepository (fieldData m "DestinationRepository")
  else if field = "DestinationCommit" then
    stepMessages (decodeString "DestinationCommit") (fieldData m "DestinationCommit")
  else if field = "Reviewers" then
    stepMessages (decodeSlice "Reviewers" E.decodeUser E.zeroUser) (fieldData m "Reviewers")
  else if field = "State" then stepMessages (decodeString "State") (fieldData m "State")
  else if field = "Draft" then stepMessages (decodeBool "Draft") (fieldData m "Draft")
  else if field = "Commit" then stepMessages (decodeString "Commit") (fieldData m "Commit")
  else if field = "Comments" then
    stepMessages (decodeSlice "Comments" decodeCommentsStruct zeroComments)
      (fieldData m "Comments")
  else if field = "created_on" then
    stepMessages (decodePtr (decodeTime E "created_on")) (fieldData m "created_on")
  else if field = "updated_on" then
    stepMessages (decodePtr (decodeTime E "updated_on")) (fieldData m "updated_on")
  else []

/-- The names under which mapstructure looks up the fields of
`PullRequestsComments`, in declaration order. -/
def commentsFields : List String :=
  ["Owner", "RepoSlug", "PullRequestID", "Content", "id", "Parent"]

/-- The messages that decoding the map `m` into a `PullRequestsComments`
raises for the field looked up as `field`. -/
def commentsMessages (m : JSONMap) (field : String) : List String :=
  if field = "Owner" then stepMessages (decodeString "Owner") (fieldData m "Owner")
  else if field = "RepoSlug" then stepMessages (decodeString "RepoSlug") (fieldData m "RepoSlug")
  else if field = "PullRequestID" then
    stepMessages (decodeInt "PullRequestID") (fieldData m "PullRequestID")
  else if field = "Content" then stepMessages decodeContentStruct (fieldData m "Content")
  else if field = "id" then stepMessages (decodeInt "id") (fieldData m "id")
  else if field = "Parent" then stepMessages (decodePtr (decodeInt "Parent")) (fieldData m "Parent")
  else []

/-- The struct that the field loop of `decodePullRequestsMap` leaves behind:
every field holds what its decode step stored, or its zero value. -/
def pullRequestsValue (E : Env) (m : JSONMap) : PullRequests E :=
  { ID := valueOf (decodeField (decodeInt "ID") 0 (fieldData m "ID")) 0,
    Title := valueOf (decodeField (decodeString "Title") "" (fieldData m "Title")) "",
    Author := valueOf (decodeField E.decodeUser E.zeroUser (fieldData m "Author")) E.zeroUser,
    Description :=
      valueOf (decodeField (decodeString "Description") "" (fieldData m "Description")) "",
    CloseSourceBranch :=
      valueOf (decodeField (decodeBool "CloseSourceBranch") false
        (fieldData m "CloseSourceBranch")) false,
    SourceBranch :=
      valueOf (decodeField E.decodeRepositoryBranch E.zeroRepositoryBranch
        (fieldData m "SourceBranch")) E.zeroRepositoryBranch,
    SourceRepository :=
      valueOf (decodeField E.decodeRepository E.zeroRepository
        (fieldData m "SourceRepository")) E.zeroRepository,
    SourceCommit :=
      valueOf (decodeField (decodeString "SourceCommit") "" (fieldData m "SourceCommit")) "",
    DestinationBranch :=
      valueOf (decodeField E.decodeRepositoryBranch E.zeroRepositoryBranch
        (fieldData m "DestinationBranch")) E.zeroRepositoryBranch,
    DestinationRepository :=
      valueOf (decodeField E.decodeRepository E.zeroRepository
        (fieldData m "DestinationRepository")) E.zeroRepository,
    DestinationCommit :=
      valueOf (decodeField (decodeString "DestinationCommit") ""
        (fieldData m "DestinationCommit")) "",
    Reviewers :=
      valueOf (decodeField (decodeSlice "Reviewers" E.decodeUser E.zeroUser) []
        (fieldData m "Reviewers")) [],
    State := valueOf (decodeField (decodeString "State") "" (fieldData m "State")) "",
    Draft := valueOf (decodeField (decodeBool "Draft") false (fieldData m "Draft")) false,
    Commit := valueOf (decodeField (decodeString "Commit") "" (fieldData m "Commit")) "",
    Comments :=
      valueOf (decodeField (decodeSlice "Comments" decodeCommentsStruct zeroComments) []
        (fieldData m "Comments")) [],
    CreatedOnTime :=
      valueOf (decodeField (decodePtr (decodeTime E "created_on")) none
        (fieldData m "created_on")) none,
    UpdatedOnTime :=
      valueOf (decodeField (decodePtr (decodeTime E "updated_on")) none
        (fieldData m "updated_on")) none }

/-- The struct that the field loop of `decodeCommentsMap` leaves behind. -/
def commentsValue (m : JSONMap) : PullRequestsComments :=
  { Owner := valueOf (decodeField (decodeString "Owner") "" (fieldData m "Owner")) "",
    RepoSlug := valueOf (decodeField (decodeString "RepoSlug") "" (fieldData m "RepoSlug")) "",
    PullRequestID :=
      valueOf (decodeField (decodeInt "PullRequestID") 0 (fieldData m "PullRequestID")) 0,
    Content := valueOf (decodeField decodeContentStruct zeroContent (fieldData m "Content"))
      zeroContent,
    CommentId := valueOf (decodeField (decodeInt "id") 0 (fieldData m "id")) 0,
    Parent := valueOf (decodeField (decodePtr (decodeInt "Parent")) none (fieldData m "Parent"))
      none }

/-- The struct that the field loop of `decodeContentStruct` leaves behind. -/
def contentValue (c : JSONMap) : PullRequestCommentsContent :=
  { Raw := valueOf (decodeField (decodeString "Raw") "" (fieldData c "Raw")) "",
    Markup := valueOf (decodeField (decodeString "Markup") "" (fieldData c "Markup")) "",
    Html := valueOf (decodeField (decodeString "Html") "" (fieldData c "Html")) "" }

/-- The request that `ListComments` sends for the options `po`. -/
def commentsRequest (c : Client) (po : PullRequestCommentOptions) : Request :=
  { method := "GET",
    url := .raw (c.apiBaseURL ++ "/repositories/" ++ po.Owner ++ "/" ++ po.RepoSlug
      ++ "/pullrequests/" ++ po.PullRequestID ++ "/comments/"),
    body := "" }

/-- The request that `appendComments` sends for the pull request `pr`. -/
def fetchRequest {E : Env} (c : Client) (po : PullRequestsOptions) (pr : PullRequests E) :
    Request :=
  commentsRequest c (commentOptsFor po pr)

/-- The members that `buildPullRequestBody` leaves in the `source` object. -/
def sourceMembers (po : PullRequestOptions) : JSONMap :=
  (if po.SourceBranch ≠ "" then [("branch", JSON.obj [("name", .str po.SourceBranch)])] else [])
  ++ (if po.SourceRepository ≠ "" then
        [("repository", JSON.obj [("full_name", .str po.SourceRepository)])] else [])

/-- The members that `buildPullRequestBody` leaves in the `destination`
object. -/
def destinationMembers (po : PullRequestOptions) : JSONMap :=
  (if po.DestinationBranch ≠ "" then
      [("branch", JSON.obj [("name", .str po.DestinationBranch)])] else [])
  ++ (if po.DestinationCommit ≠ "" then
        [("commit", JSON.obj [("hash", .str po.DestinationCommit)])] else [])

/-- The members of the body that `buildPullRequestBody` marshals. -/
def bodyMembers (po : PullRequestOptions) : JSONMap :=
  [("source", .obj (sourceMembers po)), ("destination", .obj (destinationMembers po)),
   ("reviewers", .arr (po.Reviewers.map (fun uuid => JSON.obj [("uuid", .str uuid)]))),
   ("title", .str po.Title), ("description", .str po.Description),
   ("message", .str po.Message), ("close_source_branch", .bool po.CloseSourceBranch)]
  ++ (if po.Draft then [("draft", JSON.bool true)] else [])

/-- The string that `PullRequests.List` starts from. -/
def listBase (c : Client) (po : PullRequestsOptions) : String :=
  c.apiBaseURL ++ "/repositories/" ++ PathEscape po.Owner ++ "/" ++ PathEscape po.RepoSlug
    ++ "/pullrequests/"

/-- The query that `PullRequests.List` ends with when `States` is not empty
and the string it starts from parses with the query `query`. -/
def listQuery (po : PullRequestsOptions) (query : Values) : Values :=
  let q1 := po.States.foldl (fun q state => q.Set "state" state) query
  let q2 := if po.Query ≠ "" then q1.Set "q" po.Query else q1
  if po.SortKey ≠ "" then q2.Set "sort" po.SortKey else q2

/-! ## A sample instantiation, for evaluating the definitions -/

/-- An instantiation of the parameters: the three structs carry no data and
accept exactly the maps, as every struct target of mapstructure rejects
anything that is not a map; a time is kept as its text, and a text parses
when it has the 32 characters of `2006-01-02T15:04:05.000000+00:00` with a
`T` after the date. -/
def sampleEnv : Env where
  Time := String
  User := Unit
  RepositoryBranch := Unit
  Repository := Unit
  zeroTime := ""
  zeroUser := ()
  zeroRepositoryBranch := ()
  zeroRepository := ()
  parseTime := fun s => if s.length = 32 ∧ s.data.getD 10 ' ' = 'T' then some s else none
  decodeUser := fun v =>
    match v with
    | .obj _ => .ok ()
    | _ => .error ["Author expected a map"]
  decodeRepositoryBranch := fun v =>
    match v with
    | .obj _ => .ok ()
    | _ => .error ["expected a map"]
  decodeRepository := fun v =>
    match v with
    | .obj _ => .ok ()
    | _ => .error ["expected a map"]

/-- An error envelope, as the remote API sends it in place of an item. -/
def sampleErrorItem : JSONMap :=
  [("type", .str "error"), ("error", .obj [("message", .str "x")])]

/-- A page whose `values` are an item, an error envelope and another item. -/
def samplePage : JSONMap :=
  [("page", .num 1), ("pagelen", .num 10), ("size", .num 3),
   ("values", .arr ([JSON.obj [("id", .num 1)]] ++ JSON.obj sampleErrorItem
      :: [JSON.obj [("id", .num 2)]]))]

/-- The options of `TestListPullRequestsListObjs`. -/
def sampleOptions : PullRequestsOptions :=
  { Owner := "owner", RepoSlug := "repo", Query := "", SortKey := "", States := ["DECLINED"] }

/-- A page of comments holding one comment. -/
def sampleCommentsPage : JSON :=
  .obj [("page", .num 1), ("pagelen", .num 10), ("size", .num 1),
    ("values", .arr [JSON.obj [("id", .num 756186348), ("content", .obj [("raw", .str "test")])]])]

/-- A transport that answers the first request with a page of one pull
request and every later request with a page of one comment. -/
def sampleClient : Client where
  apiBaseURL := "https://api.bitbucket.org/2.0"
  urlParse := fun _ => .ok []
  executePaginated := fun log _ =>
    match log with
    | [] => .ok (.obj [("page", .num 1), ("pagelen", .num 10), ("size", .num 1),
        ("values", .arr [JSON.obj [("id", .num 1), ("state", .str "DECLINED")]])])
    | _ => .ok sampleCommentsPage

/-- A transport that answers the first request with a page of three pull
requests, the second with a page of one comment, and fails on the third. -/
def failingClient : Client where
  apiBaseURL := "https://api.bitbucket.org/2.0"
  urlParse := fun _ => .ok []
  executePaginated := fun log _ =>
    match log with
    | [] => .ok (.obj [("values", .arr [JSON.obj [("id", .num 1)], JSON.obj [("id", .num 2)],
        JSON.obj [("id", .num 3)]])])
    | [_] => .ok sampleCommentsPage
    | _ => .error (.transport "connection reset")

/-- Options in which nothing is supplied. -/
def emptyOptions : PullRequestOptions :=
  { Owner := "owner", RepoSlug := "repo", ID := "", Commit := "", Query := "", SortKey := "",
    Reviewers := [], SourceBranch := "", SourceRepository := "", DestinationBranch := "",
    DestinationCommit := "", Title := "", Description := "", Message := "",
    CloseSourceBranch := false, Draft := false }

/-- Options in which everything is supplied. -/
def fullOptions : PullRequestOptions :=
  { Owner := "owner", RepoSlug := "repo", ID := "1", Commit := "", Query := "", SortKey := "",
    Reviewers := ["u1", "u2"], SourceBranch := "feature", SourceRepository := "owner/repo",
    DestinationBranch := "main", DestinationCommit := "def456", Title := "Test PR",
    Description := "d", Message := "m", CloseSourceBranch := true, Draft := true }

/-- Options that list three states and a query. -/
def threeStates : PullRequestsOptions :=
  { Owner := "owner", RepoSlug := "repo", Query := "description ~ fix", SortKey := "",
    States := ["OPEN", "MERGED", "DECLINED"] }

/-! ## Lemmas -/

theorem floatToInt_zero : floatToInt 0 = 0 := by decide

theorem floatToInt_natCast (n : ℕ) (h : (n : Int) ≤ maxInt64) : floatToInt (n : ℚ) = n := by
  have h0 : minInt64 ≤ (n : Int) := by
    have : minInt64 ≤ 0 := by decide
    omega
  simp [floatToInt, h0, h]

theorem errorsOf_decodeField {β : Type} (dec : JSON → Except (List String) β) (zero : β)
    (data : Option JSON) : errorsOf (decodeField dec zero data) = stepMessages dec data := by
  unfold decodeField stepMessages
  split <;> rfl

theorem decodePullRequestsMap_ok (E : Env) (m : JSONMap)
    (h : ∀ f ∈ pullRequestsFields, pullRequestsMessages E m f = []) :
    decodePullRequestsMap E m = .ok (pullRequestsValue E m) := by
  simp only [pullRequestsFields, List.forall_mem_cons, pullRequestsMessages] at h
  simp at h
  obtain ⟨h1, h2, h3, h4, h5, h6, h7, h8, h9, h10, h11, h12, h13, h14, h15, h16, h17, h18⟩ := h
  unfold decodePullRequestsMap
  simp only [errorsOf_decodeField, h1, h2, h3, h4, h5, h6, h7, h8, h9, h10, h11, h12, h13, h14,
    h15, h16, h17, h18, List.append_nil]
  rfl

theorem decodePullRequestsMap_error (E : Env) (m : JSONMap) (f : String)
    (hf : f ∈ pullRequestsFields) (h : pullRequestsMessages E m f ≠ []) :
    ∃ errs, decodePullRequestsMap E m = .error errs := by
  have hne : ¬ (stepMessages (decodeInt "ID") (fieldData m "ID")
      ++ stepMessages (decodeString "Title") (fieldData m "Title")
      ++ stepMessages E.decodeUser (fieldData m "Author")
      ++ stepMessages (decodeString "Description") (fieldData m "Description")
      ++ stepMessages (decodeBool "CloseSourceBranch") (fieldData m "CloseSourceBranch")
      ++ stepMessages E.decodeRepositoryBranch (fieldData m "SourceBranch")
      ++ stepMessages E.decodeRepository (fieldData m "SourceRepository")
      ++ stepMessages (decodeString "SourceCommit") (fieldData m "SourceCommit")
      ++ stepMessages E.decodeRepositoryBranch (fieldData m "DestinationBranch")
      ++ stepMessages E.decodeRepository (fieldData m "DestinationRepository")
      ++ stepMessages (decodeString "DestinationCommit") (fieldData m "DestinationCommit")
      ++ stepMessages (decodeSlice "Reviewers" E.decodeUser E.zeroUser) (fieldData m "Reviewers")
      ++ stepMessages (decodeString "State") (fieldData m "State")
      ++ stepMessages (decodeBool "Draft") (fieldData m "Draft")
      ++ stepMessages (decodeString "Commit") (fieldData m "Commit")
      ++ stepMessages (decodeSlice "Comments" decodeCommentsStruct zeroComments)
          (fieldData m "Comments")
      ++ stepMessages (decodePtr (decodeTime E "created_on")) (fieldData m "created_on")
      ++ stepMessages (decodePtr (decodeTime E "updated_on")) (fieldData m "updated_on")
      = []) := by
    intro hnil
    simp only [List.append_eq_nil] at hnil
    apply h
    simp only [pullRequestsFields, List.mem_cons, List.mem_singleton, List.not_mem_nil,
      or_false] at hf
    rcases hf with rfl | rfl | rfl | rfl | rfl | rfl | rfl | rfl | rfl | rfl | rfl | rfl | rfl
      | rfl | rfl | rfl | rfl | rfl <;> simp [pullRequestsMessages, hnil]
  unfold decodePullRequestsMap
  simp only [errorsOf_decodeField]
  rw [if_neg hne]
  exact ⟨_, rfl⟩

theorem decodeEntries_eq {α : Type} (dec : JSON → Outcome α) (vs : List JSON) (acc : List α)
    (h : ∀ v ∈ vs, ∀ msg, dec v ≠ .panic msg) :
    decodeEntries dec vs acc = .ok (acc ++ vs.filterMap (fun v => (dec v).item)) := by
  induction vs generalizing acc with
  | nil => simp [decodeEntries]
  | cons v vs ih =>
    have hv := h v (List.mem_cons_self v vs)
    have hvs : ∀ w ∈ vs, ∀ msg, dec w ≠ .panic msg :=
      fun w hw => h w (List.mem_cons_of_mem v hw)
    unfold decodeEntries
    cases hd : dec v with
    | ok item => simp [ih _ hvs, List.filterMap_cons, hd, Outcome.item]
    | error e => simp [ih _ hvs, List.filterMap_cons, hd, Outcome.item]
    | panic msg => exact absurd hd (hv msg)

theorem forall₂_items {α : Type} (dec : JSON → Outcome α) (vs : List JSON)
    (h : ∀ v ∈ vs, ∃ d, dec v = .ok d) :
    List.Forall₂ (fun v d => dec v = .ok d) vs (vs.filterMap (fun v => (dec v).item)) := by
  induction vs with
  | nil => simp
  | cons v vs ih =>
    obtain ⟨d, hd⟩ := h v (List.mem_cons_self v vs)
    have hvs : ∀ w ∈ vs, ∃ d, dec w = .ok d := fun w hw => h w (List.mem_cons_of_mem v hw)
    simp only [List.filterMap_cons, hd, Outcome.item]
    exact List.Forall₂.cons hd (ih hvs)

theorem decodeEntries_skip_one {α : Type} (dec : JSON → Outcome α) (pre post : List JSON)
    (bad : JSON) (e : GoError) (hbad : dec bad = .error e)
    (h : ∀ v ∈ pre ++ post, ∃ d, dec v = .ok d) :
    ∃ items, decodeEntries dec (pre ++ bad :: post) [] = .ok items
      ∧ items.length = (pre ++ bad :: post).length - 1
      ∧ List.Forall₂ (fun v d => dec v = .ok d) (pre ++ post) items := by
  have hnp : ∀ v ∈ pre ++ bad :: post, ∀ msg, dec v ≠ .panic msg := by
    intro v hv msg hp
    simp only [List.mem_append, List.mem_cons] at hv
    rcases hv with hv | rfl | hv
    · obtain ⟨d, hd⟩ := h v (List.mem_append_left _ hv)
      rw [hd] at hp
      cases hp
    · rw [hbad] at hp
      cases hp
    · obtain ⟨d, hd⟩ := h v (List.mem_append_right _ hv)
      rw [hd] at hp
      cases hp
  have hf : (pre ++ bad :: post).filterMap (fun v => (dec v).item)
      = (pre ++ post).filterMap (fun v => (dec v).item) := by
    simp [List.filterMap_append, List.filterMap_cons, hbad, Outcome.item]
  have h2 := forall₂_items dec (pre ++ post) h
  refine ⟨_, decodeEntries_eq dec _ [] hnp, ?_, ?_⟩
  · rw [List.nil_append, hf, ← h2.length_eq]
    simp
  · rw [List.nil_append, hf]
    exact h2

theorem isErrorMarker_of_type (m : JSONMap) (h : JSONMap.index m "type" = some (.str "error")) :
    isErrorMarker m = true := by
  simp [isErrorMarker, h]

theorem decodePullRequests_obj_ne_panic (E : Env) (o : JSONMap) (msg : String) :
    decodePullRequests E (.obj o) ≠ .panic msg := by
  intro hp
  by_cases h : isErrorMarker o = true
  · simp [decodePullRequests, h] at hp
  · cases hd : decodePullRequestsMap E o <;> simp [decodePullRequests, h, hd] at hp

theorem decodePullRequestsComments_obj_ne_panic (o : JSONMap) (msg : String) :
    decodePullRequestsComments (.obj o) ≠ .panic msg := by
  intro hp
  by_cases h : isErrorMarker o = true
  · simp [decodePullRequestsComments, h] at hp
  · cases hd : decodeCommentsMap o <;> simp [decodePullRequestsComments, h, hd] at hp

theorem decodePullRequests_ok (E : Env) (m : JSONMap) (hmarker : isErrorMarker m = false)
    (h : ∀ f ∈ pullRequestsFields, pullRequestsMessages E m f = []) :
    decodePullRequests E (.obj m) = .ok (pullRequestsValue E m) := by
  simp [decodePullRequests, hmarker, decodePullRequestsMap_ok E m h]

theorem decodePullRequests_error (E : Env) (m : JSONMap) (f : String)
    (hf : f ∈ pullRequestsFields) (h : pullRequestsMessages E m f ≠ []) :
    ∃ err, decodePullRequests E (.obj m) = .error err := by
  obtain ⟨errs, he⟩ := decodePullRequestsMap_error E m f hf h
  by_cases hm : isErrorMarker m = true
  · exact ⟨DecodeError m, by simp [decodePullRequests, hm]⟩
  · exact ⟨.mapstructure errs, by simp [decodePullRequests, hm, he]⟩

theorem fieldData_of_index (m : JSONMap) (k : String) (v : JSON)
    (h : JSONMap.index m k = some v) : fieldData m k = some v := by
  simp [fieldData, h]

theorem floatToInt_intCast (z : ℤ) (h : minInt64 ≤ z ∧ z ≤ maxInt64) :
    floatToInt (z : ℚ) = z := by
  simp [floatToInt, h.1, h.2]

theorem decodeContentStruct_ok (c : JSONMap)
    (h1 : stepMessages (decodeString "Raw") (fieldData c "Raw") = [])
    (h2 : stepMessages (decodeString "Markup") (fieldData c "Markup") = [])
    (h3 : stepMessages (decodeString "Html") (fieldData c "Html") = []) :
    decodeContentStruct (.obj c) = .ok (contentValue c) := by
  unfold decodeContentStruct
  simp only [errorsOf_decodeField, h1, h2, h3, List.append_nil]
  rfl

theorem decodeCommentsMap_ok (m : JSONMap)
    (h : ∀ f ∈ commentsFields, commentsMessages m f = []) :
    decodeCommentsMap m = .ok (commentsValue m) := by
  simp only [commentsFields, List.forall_mem_cons, commentsMessages] at h
  simp at h
  obtain ⟨h1, h2, h3, h4, h5, h6⟩ := h
  unfold decodeCommentsMap
  simp only [errorsOf_decodeField, h1, h2, h3, h4, h5, h6, List.append_nil]
  rfl

theorem decodePullRequestsComments_ok (m : JSONMap) (hmarker : isErrorMarker m = false)
    (h : ∀ f ∈ commentsFields, commentsMessages m f = []) :
    decodePullRequestsComments (.obj m) = .ok (commentsValue m) := by
  simp [decodePullRequestsComments, hmarker, decodeCommentsMap_ok m h]

theorem stepMessages_string (name : String) (data : Option JSON)
    (h : data = none ∨ ∃ s, data = some (.str s)) :
    stepMessages (decodeString name) data = [] := by
  rcases h with h | ⟨s, h⟩ <;> simp [h, stepMessages, decodeString, errorsOf]

theorem ListCommentsObjs_eq (c : Client) (po : PullRequestCommentOptions) (log : List Request) :
    ListCommentsObjs c po log
      = ((ListCommentsObjs c po log).1, log ++ [commentsRequest c po]) := by
  have hl : ListComments c po log
      = (c.executePaginated log (commentsRequest c po), log ++ [commentsRequest c po]) := rfl
  unfold ListCommentsObjs
  rw [hl]
  cases c.executePaginated log (commentsRequest c po) with
  | error e => rfl
  | ok v =>
    cases hd : decodePullRequestsCommentsList v <;> simp only [hd]

theorem appendCommentsLoop_fetched {E : Env} (c : Client) (po : PullRequestsOptions)
    (pre rest : List (PullRequests E)) (log : List Request)
    (h : ∀ pre1 q pre2, pre = pre1 ++ q :: pre2 →
      ∃ cl, (ListCommentsObjs c (commentOptsFor po q)
        (log ++ pre1.map (fetchRequest c po))).1 = .ok cl) :
    appendCommentsLoop c po (pre ++ rest) log
      = appendCommentsLoop c po rest (log ++ pre.map (fetchRequest c po)) := by
  induction pre generalizing log with
  | nil => simp
  | cons q pre ih =>
    obtain ⟨cl, hcl⟩ := h [] q pre rfl
    simp only [List.map_nil, List.append_nil] at hcl
    have hstep : appendCommentsLoop c po (q :: (pre ++ rest)) log
        = appendCommentsLoop c po (pre ++ rest) (log ++ [fetchRequest c po q]) := by
      conv_lhs => unfold appendCommentsLoop
      rw [ListCommentsObjs_eq, hcl]
      rfl
    rw [List.cons_append, hstep, ih]
    · simp
    · intro pre1 r pre2 hp
      have := h (q :: pre1) r pre2 (by rw [hp]; rfl)
      simpa using this

theorem appendCommentsLoop_failed {E : Env} (c : Client) (po : PullRequestsOptions)
    (pr : PullRequests E) (rest : List (PullRequests E)) (log : List Request) (err : GoError)
    (h : (ListCommentsObjs c (commentOptsFor po pr) log).1 = .error err) :
    appendCommentsLoop c po (pr :: rest) log = (.error err, log ++ [fetchRequest c po pr]) := by
  conv_lhs => unfold appendCommentsLoop
  rw [ListCommentsObjs_eq, h]
  rfl

/-! ## The claims -/

/-- C1: when the `values` array of a page holds one element marked
`type: error` and every other element is accepted by the item decoder, each
list decoder succeeds, returns one item fewer than `values` has elements, and
the items are the decodings of the other elements in their original order. -/
theorem list_decoders_skip_error_item (E : Env) (m : JSONMap) (pre post : List JSON)
    (e : JSONMap)
    (hvalues : JSONMap.index m "values" = some (.arr (pre ++ .obj e :: post)))
    (hmarker : JSONMap.index e "type" = some (.str "error")) :
    ((∀ v ∈ pre ++ post, ∃ pr, decodePullRequests E v = .ok pr) →
      ∃ page, decodePullRequestsList E (.obj m) = .ok page
        ∧ page.Items.length = (pre ++ .obj e :: post).length - 1
        ∧ List.Forall₂ (fun v pr => decodePullRequests E v = .ok pr) (pre ++ post) page.Items)
    ∧ ((∀ v ∈ pre ++ post, ∃ cm, decodePullRequestsComments v = .ok cm) →
      ∃ page, decodePullRequestsCommentsList (.obj m) = .ok page
        ∧ page.Items.length = (pre ++ .obj e :: post).length - 1
        ∧ List.Forall₂ (fun v cm => decodePullRequestsComments v = .ok cm) (pre ++ post)
            page.Items) := by
  have hm := isErrorMarker_of_type e hmarker
  constructor
  · intro h
    have hbad : decodePullRequests E (.obj e) = .error (DecodeError e) := by
      simp [decodePullRequests, hm]
    obtain ⟨items, h1, h2, h3⟩ :=
      decodeEntries_skip_one (decodePullRequests E) pre post (.obj e) _ hbad h
    simp only [decodePullRequestsList, hvalues, h1]
    exact ⟨_, rfl, h2, h3⟩
  · intro h
    have hbad : decodePullRequestsComments (.obj e) = .error (DecodeError e) := by
      simp [decodePullRequestsComments, hm]
    obtain ⟨items, h1, h2, h3⟩ :=
      decodeEntries_skip_one decodePullRequestsComments pre post (.obj e) _ hbad h
    simp only [decodePullRequestsCommentsList, hvalues, h1]
    exact ⟨_, rfl, h2, h3⟩

/-- Witness of C1: a page whose `values` are a pull request, an error
envelope and another pull request. -/
theorem list_decoders_skip_error_item_witness :
    (∃ page, decodePullRequestsList sampleEnv (.obj samplePage) = .ok page
      ∧ page.Items.length = 2
      ∧ List.Forall₂ (fun v pr => decodePullRequests sampleEnv v = .ok pr)
          ([JSON.obj [("id", .num 1)]] ++ [JSON.obj [("id", .num 2)]]) page.Items)
    ∧ (∃ page, decodePullRequestsCommentsList (.obj samplePage) = .ok page
      ∧ page.Items.length = 2
      ∧ List.Forall₂ (fun v cm => decodePullRequestsComments v = .ok cm)
          ([JSON.obj [("id", .num 1)]] ++ [JSON.obj [("id", .num 2)]]) page.Items) := by
  have h := list_decoders_skip_error_item sampleEnv samplePage
    [JSON.obj [("id", .num 1)]] [JSON.obj [("id", .num 2)]] sampleErrorItem rfl rfl
  constructor
  · apply h.1
    intro v hv
    simp only [List.cons_append, List.nil_append, List.mem_cons, List.mem_singleton,
      List.not_mem_nil, or_false] at hv
    rcases hv with rfl | rfl
    · exact ⟨_, rfl⟩
    · exact ⟨_, rfl⟩
  · apply h.2
    intro v hv
    simp only [List.cons_append, List.nil_append, List.mem_cons, List.mem_singleton,
      List.not_mem_nil, or_false] at hv
    rcases hv with rfl | rfl
    · exact ⟨_, rfl⟩
    · exact ⟨_, rfl⟩

/-- C2: for every top-level value that is not a mapping, both list decoders
return the error `Not a valid format` and no page. -/
theorem list_decoders_reject_non_mapping (E : Env) (v : JSON) (h : ∀ m, v ≠ .obj m) :
    decodePullRequestsList E v = .error (.errorsNew "Not a valid format")
    ∧ decodePullRequestsCommentsList v = .error (.errorsNew "Not a valid format") := by
  cases v with
  | obj m => exact absurd rfl (h m)
  | null => exact ⟨rfl, rfl⟩
  | bool b => exact ⟨rfl, rfl⟩
  | num x => exact ⟨rfl, rfl⟩
  | str s => exact ⟨rfl, rfl⟩
  | arr xs => exact ⟨rfl, rfl⟩

/-- Witness of C2: the string of `TestDecodePullRequestsList_InvalidFormat`. -/
theorem list_decoders_reject_non_mapping_witness :
    decodePullRequestsList sampleEnv (.str "invalid string")
      = .error (.errorsNew "Not a valid format")
    ∧ decodePullRequestsCommentsList (.str "invalid string")
      = .error (.errorsNew "Not a valid format") :=
  list_decoders_reject_non_mapping sampleEnv (.str "invalid string")
    (fun _ hm => JSON.noConfusion hm)

/-- C3, on the code: a mapping whose `values` is an array, with no `page`,
`pagelen` or `size`, on which both list decoders panic instead of returning
a page with the three fields at 0.  An element of the array is not an
object, and the item decoders assert unchecked that their argument is a map:
the defect of C17. -/
theorem pagination_defaults_lost_to_panic :
    JSONMap.index [("values", JSON.arr [.str "x"])] "values" = some (.arr [.str "x"])
    ∧ decodePullRequestsList sampleEnv (.obj [("values", JSON.arr [.str "x"])])
      = .panic "interface conversion: interface is not map[string]interface {}"
    ∧ decodePullRequestsCommentsList (.obj [("values", JSON.arr [.str "x"])])
      = .panic "interface conversion: interface is not map[string]interface {}" :=
  ⟨rfl, rfl, rfl⟩

/-- The pagination defaults where the item decoders do not panic: for every
page mapping whose `values` is an array of objects, both list decoders
return a page, and in it each of `Page`, `Pagelen`, `Size` is 0 whenever the
key `page`, `pagelen`, `size` is absent or bound to something that is not a
number, whatever the other two are. -/
theorem pagination_defaults (E : Env) (m : JSONMap) (vs : List JSON)
    (hvalues : JSONMap.index m "values" = some (.arr vs))
    (hobjects : ∀ v ∈ vs, ∃ o, v = .obj o) :
    (∃ page, decodePullRequestsList E (.obj m) = .ok page
      ∧ ((∀ x, JSONMap.index m "page" ≠ some (.num x)) → page.Page = 0)
      ∧ ((∀ x, JSONMap.index m "pagelen" ≠ some (.num x)) → page.Pagelen = 0)
      ∧ ((∀ x, JSONMap.index m "size" ≠ some (.num x)) → page.Size = 0))
    ∧ (∃ page, decodePullRequestsCommentsList (.obj m) = .ok page
      ∧ ((∀ x, JSONMap.index m "page" ≠ some (.num x)) → page.Page = 0)
      ∧ ((∀ x, JSONMap.index m "pagelen" ≠ some (.num x)) → page.Pagelen = 0)
      ∧ ((∀ x, JSONMap.index m "size" ≠ some (.num x)) → page.Size = 0)) := by
  have hfield : ∀ key, (∀ x, JSONMap.index m key ≠ some (.num x)) → pageField m key = 0 := by
    intro key hk
    unfold pageField
    split
    · next f hf => exact absurd hf (hk f)
    · exact floatToInt_zero
  constructor
  · have hnp : ∀ v ∈ vs, ∀ msg, decodePullRequests E v ≠ .panic msg := by
      intro v hv msg
      obtain ⟨o, rfl⟩ := hobjects v hv
      exact decodePullRequests_obj_ne_panic E o msg
    simp only [decodePullRequestsList, hvalues, decodeEntries_eq _ vs [] hnp]
    exact ⟨_, rfl, hfield "page", hfield "pagelen", hfield "size"⟩
  · have hnp : ∀ v ∈ vs, ∀ msg, decodePullRequestsComments v ≠ .panic msg := by
      intro v hv msg
      obtain ⟨o, rfl⟩ := hobjects v hv
      exact decodePullRequestsComments_obj_ne_panic o msg
    simp only [decodePullRequestsCommentsList, hvalues, decodeEntries_eq _ vs [] hnp]
    exact ⟨_, rfl, hfield "page", hfield "pagelen", hfield "size"⟩

/-- Evaluation of `pagination_defaults` on the payload of
`TestDecodePullRequestsList_InvalidPaginationTypes`, whose `page` is a
string, `pagelen` null and `size` an object. -/
theorem pagination_defaults_witness :
    (∃ page, decodePullRequestsList sampleEnv
        (.obj [("page", .str "invalid"), ("pagelen", .null), ("size", .obj []),
          ("values", .arr [JSON.obj [("id", .num 1)]])]) = .ok page
      ∧ page.Page = 0 ∧ page.Pagelen = 0 ∧ page.Size = 0 ∧ page.Items.length = 1)
    ∧ (∃ page, decodePullRequestsCommentsList
        (.obj [("page", .str "invalid"), ("pagelen", .null), ("size", .obj []),
          ("values", .arr [JSON.obj [("id", .num 1)]])]) = .ok page
      ∧ page.Page = 0 ∧ page.Pagelen = 0 ∧ page.Size = 0 ∧ page.Items.length = 1) := by
  have h := pagination_defaults sampleEnv
    [("page", .str "invalid"), ("pagelen", .null), ("size", .obj []),
      ("values", .arr [JSON.obj [("id", .num 1)]])]
    [JSON.obj [("id", .num 1)]] rfl
    (by
      intro v hv
      simp only [List.mem_singleton] at hv
      exact ⟨_, hv⟩)
  obtain ⟨⟨p, hp, h1, h2, h3⟩, ⟨q, hq, k1, k2, k3⟩⟩ := h
  have e1 : ∀ x, JSONMap.index [("page", JSON.str "invalid"), ("pagelen", .null),
      ("size", .obj []), ("values", .arr [JSON.obj [("id", .num 1)]])] "page"
      ≠ some (.num x) := by
    intro x hx
    cases hx
  have e2 : ∀ x, JSONMap.index [("page", JSON.str "invalid"), ("pagelen", .null),
      ("size", .obj []), ("values", .arr [JSON.obj [("id", .num 1)]])] "pagelen"
      ≠ some (.num x) := by
    intro x hx
    cases hx
  have e3 : ∀ x, JSONMap.index [("page", JSON.str "invalid"), ("pagelen", .null),
      ("size", .obj []), ("values", .arr [JSON.obj [("id", .num 1)]])] "size"
      ≠ some (.num x) := by
    intro x hx
    cases hx
  refine ⟨⟨p, hp, h1 e1, h2 e2, h3 e3, ?_⟩, ⟨q, hq, k1 e1, k2 e2, k3 e3, ?_⟩⟩
  · have hp2 : decodePullRequestsList sampleEnv
        (.obj [("page", .str "invalid"), ("pagelen", .null), ("size", .obj []),
          ("values", .arr [JSON.obj [("id", .num 1)]])]) = .ok _ := rfl
    rw [hp2] at hp
    cases hp
    rfl
  · have hq2 : decodePullRequestsCommentsList
        (.obj [("page", .str "invalid"), ("pagelen", .null), ("size", .obj []),
          ("values", .arr [JSON.obj [("id", .num 1)]])]) = .ok _ := rfl
    rw [hq2] at hq
    cases hq
    rfl

/-- C4: for every object whose `type` is the string `error`, both item
decoders return the error built by `DecodeError` and no entity, whatever else
the object holds. -/
theorem item_decoders_reject_error_marker (E : Env) (m : JSONMap)
    (hmarker : JSONMap.index m "type" = some (.str "error")) :
    decodePullRequests E (.obj m) = .error (DecodeError m)
    ∧ decodePullRequestsComments (.obj m) = .error (DecodeError m) := by
  have hm := isErrorMarker_of_type m hmarker
  constructor
  · simp [decodePullRequests, hm]
  · simp [decodePullRequestsComments, hm]

/-- Witness of C4: the envelope of `TestDecodePullRequests_ErrorType`, with a
valid `id` next to the marker. -/
theorem item_decoders_reject_error_marker_witness :
    decodePullRequests sampleEnv
      (.obj [("id", .num 7), ("type", .str "error"),
        ("error", .obj [("message", .str "Pull request not found")])])
      = .error (.remoteAPI "Pull request not found")
    ∧ decodePullRequestsComments
      (.obj [("id", .num 7), ("type", .str "error"),
        ("error", .obj [("message", .str "Pull request not found")])])
      = .error (.remoteAPI "Pull request not found") :=
  item_decoders_reject_error_marker sampleEnv
    [("id", .num 7), ("type", .str "error"),
      ("error", .obj [("message", .str "Pull request not found")])] rfl

/-- Counterexample to C5 as stated: an object without error marker and
without `created_on` or `updated_on` key whose decode fails, because its
`title` is a number. -/
theorem timestamp_strictness_counterexample :
    isErrorMarker [("title", JSON.num 5)] = false
    ∧ fieldData [("title", JSON.num 5)] "created_on" = none
    ∧ fieldData [("title", JSON.num 5)] "updated_on" = none
    ∧ decodePullRequests sampleEnv (.obj [("title", JSON.num 5)])
      = .error (.mapstructure ["Title expected type string, got unconvertible type"]) :=
  ⟨rfl, rfl, rfl, rfl⟩

/-- C5, amended: `decodePullRequests` returns an error and no entity for
every object whose `created_on` is a string that does not parse as a
timestamp, whatever the other fields are; and for every object without error
marker in which no key matches `created_on` (respectively `updated_on`) and
every other field looked up by the decoder is absent, null or accepted by its
field decoder, it succeeds with `CreatedOnTime` (respectively
`UpdatedOnTime`) nil. -/
theorem timestamp_strictness (E : Env) (m : JSONMap) :
    (∀ s, JSONMap.index m "created_on" = some (.str s) → E.parseTime s = none →
      ∃ err, decodePullRequests E (.obj m) = .error err)
    ∧ (isErrorMarker m = false → fieldData m "created_on" = none →
        (∀ f ∈ pullRequestsFields, f ≠ "created_on" → pullRequestsMessages E m f = []) →
        ∃ pr, decodePullRequests E (.obj m) = .ok pr ∧ pr.CreatedOnTime = none)
    ∧ (isErrorMarker m = false → fieldData m "updated_on" = none →
        (∀ f ∈ pullRequestsFields, f ≠ "updated_on" → pullRequestsMessages E m f = []) →
        ∃ pr, decodePullRequests E (.obj m) = .ok pr ∧ pr.UpdatedOnTime = none) := by
  refine ⟨?_, ?_, ?_⟩
  · intro s hs hparse
    apply decodePullRequests_error E m "created_on" (by simp [pullRequestsFields])
    simp [pullRequestsMessages, fieldData_of_index m _ _ hs, stepMessages, decodePtr,
      decodeTime, stringToTimeHookFunc, hparse, errorsOf]
  · intro hmarker hnone hrest
    have hall : ∀ f ∈ pullRequestsFields, pullRequestsMessages E m f = [] := by
      intro f hf
      by_cases hc : f = "created_on"
      · subst hc
        simp [pullRequestsMessages, hnone, stepMessages]
      · exact hrest f hf hc
    refine ⟨_, decodePullRequests_ok E m hmarker hall, ?_⟩
    simp [pullRequestsValue, hnone, decodeField, valueOf]
  · intro hmarker hnone hrest
    have hall : ∀ f ∈ pullRequestsFields, pullRequestsMessages E m f = [] := by
      intro f hf
      by_cases hc : f = "updated_on"
      · subst hc
        simp [pullRequestsMessages, hnone, stepMessages]
      · exact hrest f hf hc
    refine ⟨_, decodePullRequests_ok E m hmarker hall, ?_⟩
    simp [pullRequestsValue, hnone, decodeField, valueOf]

/-- Witness of C5, amended: the payload of `TestDecodePullRequests_InvalidTime`
fails; an object with an `id` and a valid `updated_on` decodes with
`CreatedOnTime` nil, and one with an `id` and a valid `created_on` decodes with
`UpdatedOnTime` nil. -/
theorem timestamp_strictness_witness :
    (∃ err, decodePullRequests sampleEnv
        (.obj [("id", .num 123), ("title", .str "Test PR"),
          ("created_on", .str "invalid-time-format"),
          ("updated_on", .str "2026-01-16T14:20:00.000000+00:00")]) = .error err)
    ∧ (∃ pr, decodePullRequests sampleEnv
        (.obj [("id", .num 1), ("updated_on", .str "2026-01-16T14:20:00.000000+00:00")])
          = .ok pr ∧ pr.CreatedOnTime = none)
    ∧ (∃ pr, decodePullRequests sampleEnv
        (.obj [("id", .num 1), ("created_on", .str "2026-01-15T10:30:00.000000+00:00")])
          = .ok pr ∧ pr.UpdatedOnTime = none) := by
  refine ⟨?_, ?_, ?_⟩
  · exact (timestamp_strictness sampleEnv
      [("id", .num 123), ("title", .str "Test PR"),
        ("created_on", .str "invalid-time-format"),
        ("updated_on", .str "2026-01-16T14:20:00.000000+00:00")]).1
      "invalid-time-format" rfl rfl
  · apply (timestamp_strictness sampleEnv
      [("id", .num 1), ("updated_on", .str "2026-01-16T14:20:00.000000+00:00")]).2.1 rfl rfl
    intro f hf _
    simp only [pullRequestsFields, List.mem_cons, List.mem_singleton, List.not_mem_nil,
      or_false] at hf
    rcases hf with rfl | rfl | rfl | rfl | rfl | rfl | rfl | rfl | rfl | rfl | rfl | rfl | rfl
      | rfl | rfl | rfl | rfl | rfl <;> rfl
  · apply (timestamp_strictness sampleEnv
      [("id", .num 1), ("created_on", .str "2026-01-15T10:30:00.000000+00:00")]).2.2 rfl rfl
    intro f hf _
    simp only [pullRequestsFields, List.mem_cons, List.mem_singleton, List.not_mem_nil,
      or_false] at hf
    rcases hf with rfl | rfl | rfl | rfl | rfl | rfl | rfl | rfl | rfl | rfl | rfl | rfl | rfl
      | rfl | rfl | rfl | rfl | rfl <;> rfl

/-- Counterexample to C6 as stated: an object without error marker whose
`id` is the number 123, whose `title`, `description`, `state` are strings and
whose `draft` is a boolean, and whose decode fails, because its `created_on`
does not parse; and an object whose `id` is the integral number 2^63, which
decodes to an identifier that is not 2^63, a 64-bit `int` holding no such
value. -/
theorem decode_fields_counterexample :
    decodePullRequests sampleEnv
        (.obj [("id", .num 123), ("title", .str "Test PR"), ("description", .str "d"),
          ("state", .str "OPEN"), ("draft", .bool false),
          ("created_on", .str "invalid-time-format")])
      = .error (.mapstructure ["error decoding created_on: cannot parse as a time"])
    ∧ (∃ pr, decodePullRequests sampleEnv (.obj [("id", .num 9223372036854775808)]) = .ok pr
      ∧ pr.ID ≠ 9223372036854775808) :=
  ⟨rfl, pullRequestsValue sampleEnv [("id", .num 9223372036854775808)], rfl, by decide⟩

/-- C6, amended: for every object without error marker in which the value
matched to `ID` (the key `ID`, else the first key equal to it ignoring case)
is a non-negative integral number `n` below 2^63, the values matched to
`Title`, `Description`, `State` are strings or absent, the one matched to
`Draft` is a boolean or absent, and every other field looked up by the
decoder is absent, null or accepted by its field decoder,
`decodePullRequests` succeeds; the identifier is `n`, each of title,
description, state and draft flag is the input value, and is the zero value
(empty string, false) when absent. -/
theorem decode_fields (E : Env) (m : JSONMap) (n : ℕ)
    (hmarker : isErrorMarker m = false)
    (hid : fieldData m "ID" = some (.num n)) (hn : (n : Int) ≤ maxInt64)
    (htitle : fieldData m "Title" = none ∨ ∃ s, fieldData m "Title" = some (.str s))
    (hdescription :
      fieldData m "Description" = none ∨ ∃ s, fieldData m "Description" = some (.str s))
    (hstate : fieldData m "State" = none ∨ ∃ s, fieldData m "State" = some (.str s))
    (hdraft : fieldData m "Draft" = none ∨ ∃ b, fieldData m "Draft" = some (.bool b))
    (hrest : ∀ f ∈ pullRequestsFields, f ∉ ["ID", "Title", "Description", "State", "Draft"] →
      pullRequestsMessages E m f = []) :
    ∃ pr, decodePullRequests E (.obj m) = .ok pr
      ∧ pr.ID = n
      ∧ (∀ s, fieldData m "Title" = some (.str s) → pr.Title = s)
      ∧ (fieldData m "Title" = none → pr.Title = "")
      ∧ (∀ s, fieldData m "Description" = some (.str s) → pr.Description = s)
      ∧ (fieldData m "Description" = none → pr.Description = "")
      ∧ (∀ s, fieldData m "State" = some (.str s) → pr.State = s)
      ∧ (fieldData m "State" = none → pr.State = "")
      ∧ (∀ b, fieldData m "Draft" = some (.bool b) → pr.Draft = b)
      ∧ (fieldData m "Draft" = none → pr.Draft = false) := by
  have hall : ∀ f ∈ pullRequestsFields, pullRequestsMessages E m f = [] := by
    intro f hf
    by_cases hin : f ∈ ["ID", "Title", "Description", "State", "Draft"]
    · simp only [List.mem_cons, List.mem_singleton, List.not_mem_nil, or_false] at hin
      rcases hin with rfl | rfl | rfl | rfl | rfl
      · simp [pullRequestsMessages, hid, stepMessages, decodeInt, errorsOf]
      · rcases htitle with h | ⟨s, h⟩ <;>
          simp [pullRequestsMessages, h, stepMessages, decodeString, errorsOf]
      · rcases hdescription with h | ⟨s, h⟩ <;>
          simp [pullRequestsMessages, h, stepMessages, decodeString, errorsOf]
      · rcases hstate with h | ⟨s, h⟩ <;>
          simp [pullRequestsMessages, h, stepMessages, decodeString, errorsOf]
      · rcases hdraft with h | ⟨b, h⟩ <;>
          simp [pullRequestsMessages, h, stepMessages, decodeBool, errorsOf]
    · exact hrest f hf hin
  refine ⟨_, decodePullRequests_ok E m hmarker hall, ?_, ?_, ?_, ?_, ?_, ?_, ?_, ?_, ?_⟩
  · simp [pullRequestsValue, hid, decodeField, decodeInt, valueOf, floatToInt_natCast n hn]
  · intro s hs
    simp [pullRequestsValue, hs, decodeField, decodeString, valueOf]
  · intro hs
    simp [pullRequestsValue, hs, decodeField, valueOf]
  · intro s hs
    simp [pullRequestsValue, hs, decodeField, decodeString, valueOf]
  · intro hs
    simp [pullRequestsValue, hs, decodeField, valueOf]
  · intro s hs
    simp [pullRequestsValue, hs, decodeField, decodeString, valueOf]
  · intro hs
    simp [pullRequestsValue, hs, decodeField, valueOf]
  · intro b hb
    simp [pullRequestsValue, hb, decodeField, decodeBool, valueOf]
  · intro hb
    simp [pullRequestsValue, hb, decodeField, valueOf]

/-- Witness of C6, amended: the scenario of the specification, with a valid
`created_on` and the unmatched key `close_source_branch`. -/
theorem decode_fields_witness :
    ∃ pr, decodePullRequests sampleEnv
        (.obj [("id", .num 123), ("title", .str "Test PR"), ("state", .str "OPEN"),
          ("draft", .bool false), ("created_on", .str "2026-01-15T10:30:00.000000+00:00"),
          ("close_source_branch", .bool true)]) = .ok pr
      ∧ pr.ID = 123 ∧ pr.Title = "Test PR" ∧ pr.Description = "" ∧ pr.State = "OPEN"
      ∧ pr.Draft = false := by
  obtain ⟨pr, h, h1, h2, _, _, h3, h4, _, h5, _⟩ := decode_fields sampleEnv
    [("id", .num 123), ("title", .str "Test PR"), ("state", .str "OPEN"),
      ("draft", .bool false), ("created_on", .str "2026-01-15T10:30:00.000000+00:00"),
      ("close_source_branch", .bool true)] 123 rfl rfl (by decide)
    (Or.inr ⟨"Test PR", rfl⟩) (Or.inl rfl) (Or.inr ⟨"OPEN", rfl⟩) (Or.inr ⟨false, rfl⟩)
    (by
      intro f hf _
      simp only [pullRequestsFields, List.mem_cons, List.mem_singleton, List.not_mem_nil,
        or_false] at hf
      rcases hf with rfl | rfl | rfl | rfl | rfl | rfl | rfl | rfl | rfl | rfl | rfl | rfl
        | rfl | rfl | rfl | rfl | rfl | rfl <;> rfl)
  exact ⟨pr, h, h1, h2 _ rfl, h3 rfl, h4 _ rfl, h5 _ rfl⟩

/-- C7, on the code: an object with the key `close_source_branch` decodes,
and its `CloseSourceBranch` is false whatever the boolean under the key is.
The field carries no `mapstructure` tag, so it is looked up as
`CloseSourceBranch`, which `close_source_branch` does not match even ignoring
case. -/
theorem close_source_branch_not_decoded (E : Env) (b : Bool) :
    ∃ pr, decodePullRequests E
        (.obj [("id", .num 123), ("title", .str "Test PR"), ("close_source_branch", .bool b)])
          = .ok pr
      ∧ pr.ID = 123 ∧ pr.Title = "Test PR" ∧ pr.CloseSourceBranch = false := by
  refine ⟨_, decodePullRequests_ok E _ rfl ?_, rfl, rfl, rfl⟩
  intro f hf
  simp only [pullRequestsFields, List.mem_cons, List.mem_singleton, List.not_mem_nil,
    or_false] at hf
  rcases hf with rfl | rfl | rfl | rfl | rfl | rfl | rfl | rfl | rfl | rfl | rfl | rfl | rfl
    | rfl | rfl | rfl | rfl | rfl <;> rfl

/-- Counterexample to C8 as stated: two comment objects without error marker
whose decode fails.  In the first `parent` is an object holding the parent's
`id`; in the second `id`, `content` and `parent` are as the claim has them
and the key `owner`, matched to the field `Owner`, is a number. -/
theorem decode_comment_counterexample :
    decodePullRequestsComments
        (.obj [("id", .num 1), ("content", .obj [("raw", .str "hi")]),
          ("parent", .obj [("id", .num 5)])])
      = .error (.mapstructure ["Parent expected type int, got unconvertible type"])
    ∧ decodePullRequestsComments
        (.obj [("id", .num 756186348),
          ("content", .obj [("raw", .str "hi"), ("markup", .str "markdown"),
            ("html", .str "<p>hi</p>")]),
          ("parent", .num 123456), ("owner", .num 7)])
      = .error (.mapstructure ["Owner expected type string, got unconvertible type"]) :=
  ⟨rfl, rfl⟩

/-- C8, amended: for every comment object without error marker in which the
value matched to `id` is an integral number `n` within 64 bits, the value
matched to `Content` is absent or an object whose `Raw`, `Markup`, `Html` are
strings or absent, the value matched to `Parent` is absent or an integral
number within 64 bits, and `Owner`, `RepoSlug`, `PullRequestID` are absent,
null or accepted by their field decoders, `decodePullRequestsComments`
succeeds; the identifier is `n`, raw, markup and html are the strings under
the content object, and the parent identifier is the number under `Parent`
when there is one and nil when no key matches. -/
theorem decode_comment (m : JSONMap) (n : ℤ)
    (hmarker : isErrorMarker m = false)
    (hid : fieldData m "id" = some (.num n)) (hn : minInt64 ≤ n ∧ n ≤ maxInt64)
    (hcontent : fieldData m "Content" = none ∨
      ∃ c, fieldData m "Content" = some (.obj c)
        ∧ (fieldData c "Raw" = none ∨ ∃ s, fieldData c "Raw" = some (.str s))
        ∧ (fieldData c "Markup" = none ∨ ∃ s, fieldData c "Markup" = some (.str s))
        ∧ (fieldData c "Html" = none ∨ ∃ s, fieldData c "Html" = some (.str s)))
    (hparent : fieldData m "Parent" = none ∨
      ∃ p : ℤ, fieldData m "Parent" = some (.num p) ∧ minInt64 ≤ p ∧ p ≤ maxInt64)
    (hrest : ∀ f ∈ commentsFields, f ∉ ["Content", "id", "Parent"] →
      commentsMessages m f = []) :
    ∃ cm, decodePullRequestsComments (.obj m) = .ok cm
      ∧ cm.CommentId = n
      ∧ (∀ c, fieldData m "Content" = some (.obj c) →
          (∀ s, fieldData c "Raw" = some (.str s) → cm.Content.Raw = s)
          ∧ (∀ s, fieldData c "Markup" = some (.str s) → cm.Content.Markup = s)
          ∧ (∀ s, fieldData c "Html" = some (.str s) → cm.Content.Html = s))
      ∧ (∀ p : ℤ, fieldData m "Parent" = some (.num p) → minInt64 ≤ p → p ≤ maxInt64 →
          cm.Parent = some p)
      ∧ (fieldData m "Parent" = none → cm.Parent = none) := by
  have hcok : ∀ c, fieldData m "Content" = some (.obj c) →
      decodeContentStruct (.obj c) = .ok (contentValue c) := by
    intro c hc
    rcases hcontent with h | ⟨c2, h, hr, hm, hh⟩
    · rw [h] at hc
      cases hc
    · rw [h] at hc
      cases hc
      exact decodeContentStruct_ok c (stepMessages_string _ _ hr) (stepMessages_string _ _ hm)
        (stepMessages_string _ _ hh)
  have hall : ∀ f ∈ commentsFields, commentsMessages m f = [] := by
    intro f hf
    by_cases hin : f ∈ ["Content", "id", "Parent"]
    · simp only [List.mem_cons, List.mem_singleton, List.not_mem_nil, or_false] at hin
      rcases hin with rfl | rfl | rfl
      · rcases hcontent with h | ⟨c, h, _⟩
        · simp [commentsMessages, h, stepMessages]
        · simp [commentsMessages, h, stepMessages, hcok c h, errorsOf]
      · simp [commentsMessages, hid, stepMessages, decodeInt, errorsOf]
      · rcases hparent with h | ⟨p, h, _⟩ <;>
          simp [commentsMessages, h, stepMessages, decodePtr, decodeInt, errorsOf]
    · exact hrest f hf hin
  refine ⟨_, decodePullRequestsComments_ok m hmarker hall, ?_, ?_, ?_, ?_⟩
  · simp [commentsValue, hid, decodeField, decodeInt, valueOf, floatToInt_intCast n hn]
  · intro c hc
    have hv : (commentsValue m).Content = contentValue c := by
      simp [commentsValue, hc, decodeField, hcok c hc, valueOf]
    rw [hv]
    refine ⟨?_, ?_, ?_⟩ <;> intro s hs <;>
      simp [contentValue, hs, decodeField, decodeString, valueOf]
  · intro p hp h1 h2
    simp [commentsValue, hp, decodeField, decodePtr, decodeInt, valueOf,
      floatToInt_intCast p ⟨h1, h2⟩]
  · intro hp
    simp [commentsValue, hp, decodeField, valueOf]

/-- Witness of C8, amended: the scenario of the specification. -/
theorem decode_comment_witness :
    ∃ cm, decodePullRequestsComments
        (.obj [("id", .num 756186348),
          ("content", .obj [("raw", .str "hi"), ("markup", .str "markdown"),
            ("html", .str "<p>hi</p>")]),
          ("parent", .num 123456)]) = .ok cm
      ∧ cm.CommentId = 756186348 ∧ cm.Content.Raw = "hi" ∧ cm.Content.Markup = "markdown"
      ∧ cm.Content.Html = "<p>hi</p>" ∧ cm.Parent = some 123456 := by
  obtain ⟨cm, h, h1, h2, h3, _⟩ := decode_comment
    [("id", .num 756186348),
      ("content", .obj [("raw", .str "hi"), ("markup", .str "markdown"),
        ("html", .str "<p>hi</p>")]),
      ("parent", .num 123456)] 756186348 rfl rfl (by decide)
    (Or.inr ⟨[("raw", .str "hi"), ("markup", .str "markdown"), ("html", .str "<p>hi</p>")],
      rfl, Or.inr ⟨"hi", rfl⟩, Or.inr ⟨"markdown", rfl⟩, Or.inr ⟨"<p>hi</p>", rfl⟩⟩)
    (Or.inr ⟨123456, rfl, by decide, by decide⟩)
    (by
      intro f hf _
      simp only [commentsFields, List.mem_cons, List.mem_singleton, List.not_mem_nil,
        or_false] at hf
      rcases hf with rfl | rfl | rfl | rfl | rfl | rfl <;> rfl)
  obtain ⟨r1, r2, r3⟩ := h2 _ rfl
  exact ⟨cm, h, h1, r1 _ rfl, r2 _ rfl, r3 _ rfl, h3 123456 rfl (by decide) (by decide)⟩

/-- C9, on the code: with a transport that returns one pull request and, for
it, one comment, the comment fetch made by `ListObjs` returns a list of one
comment, `ListObjs` succeeds after two requests, and the pull request in the
page it returns has no comment: `appendComments` assigns to the copy held by
its loop variable and never to the element of the page. -/
theorem ListObjs_drops_comments :
    (∃ cl, (ListCommentsObjs sampleClient
        (commentOptsFor sampleOptions (pullRequestsValue sampleEnv
          [("id", .num 1), ("state", .str "DECLINED")]))
        (PullRequests_List sampleClient sampleOptions []).2).1 = .ok cl
      ∧ cl.Items.length = 1)
    ∧ (∃ page, (ListObjs sampleEnv sampleClient sampleOptions []).1 = .ok page
      ∧ page.Items.map (fun pr => pr.ID) = [1]
      ∧ page.Items.map (fun pr => pr.Comments) = [[]])
    ∧ (ListObjs sampleEnv sampleClient sampleOptions []).2.length = 2 :=
  ⟨⟨_, rfl, rfl⟩, ⟨_, rfl, rfl, rfl⟩, rfl⟩

/-- C10: when the fetches for the pull requests before the k-th all succeed
and the fetch for the k-th returns an error, `appendComments` returns that
error, has sent the requests of the first k pull requests and no other, and
leaves the list as it was; `ListObjs`, on a listing that decoded to this
page, returns that error and no page. -/
theorem appendComments_first_failure (E : Env) (c : Client) (po : PullRequestsOptions)
    (page : PullRequestsList E) (pre post : List (PullRequests E)) (pr : PullRequests E)
    (err : GoError) (log : List Request)
    (hitems : page.Items = pre ++ pr :: post)
    (hpre : ∀ pre1 q pre2, pre = pre1 ++ q :: pre2 →
      ∃ cl, (ListCommentsObjs c (commentOptsFor po q)
        (log ++ pre1.map (fetchRequest c po))).1 = .ok cl)
    (hfail : (ListCommentsObjs c (commentOptsFor po pr)
      (log ++ pre.map (fetchRequest c po))).1 = .error err) :
    appendComments c po page log
      = (.error err, log ++ (pre ++ [pr]).map (fetchRequest c po), page)
    ∧ (∀ log0 res, PullRequests_List c po log0 = (.ok res, log) →
        decodePullRequestsList E res = .ok page →
        ListObjs E c po log0
          = (.error err, log ++ (pre ++ [pr]).map (fetchRequest c po))) := by
  have hloop : appendCommentsLoop c po page.Items log
      = (.error err, log ++ (pre ++ [pr]).map (fetchRequest c po)) := by
    rw [hitems, appendCommentsLoop_fetched c po pre (pr :: post) log hpre,
      appendCommentsLoop_failed c po pr post _ err hfail]
    simp
  have happ : appendComments c po page log
      = (.error err, log ++ (pre ++ [pr]).map (fetchRequest c po), page) := by
    simp only [appendComments, hloop]
  refine ⟨happ, ?_⟩
  intro log0 res hlist hdecode
  simp only [ListObjs, hlist, hdecode, happ]

/-- Witness of C10: a page of three pull requests on a transport whose
second comment fetch fails.  `ListObjs` returns the transport's error and no
page, after the listing and the fetches of the first two pull requests. -/
theorem appendComments_first_failure_witness :
    ListObjs sampleEnv failingClient sampleOptions []
      = (.error (.transport "connection reset"),
          (PullRequests_List failingClient sampleOptions []).2
            ++ [fetchRequest failingClient sampleOptions
                  (pullRequestsValue sampleEnv [("id", .num 1)]),
                fetchRequest failingClient sampleOptions
                  (pullRequestsValue sampleEnv [("id", .num 2)])]) := by
  have h := appendComments_first_failure sampleEnv failingClient sampleOptions
    { Page := 0, Pagelen := 0, MaxDepth := 0, Size := 0, Next := "",
      Items := [pullRequestsValue sampleEnv [("id", .num 1)],
        pullRequestsValue sampleEnv [("id", .num 2)],
        pullRequestsValue sampleEnv [("id", .num 3)]] }
    [pullRequestsValue sampleEnv [("id", .num 1)]]
    [pullRequestsValue sampleEnv [("id", .num 3)]]
    (pullRequestsValue sampleEnv [("id", .num 2)])
    (.transport "connection reset")
    (PullRequests_List failingClient sampleOptions []).2
    rfl
    (by
      intro pre1 q pre2 hp
      cases pre1 with
      | nil =>
        simp only [List.nil_append, List.cons.injEq] at hp
        obtain ⟨rfl, _⟩ := hp
        exact ⟨_, rfl⟩
      | cons a pre1 =>
        simp at hp)
    rfl
  exact h.2 []
    (.obj [("values", .arr [JSON.obj [("id", .num 1)], JSON.obj [("id", .num 2)],
      JSON.obj [("id", .num 3)]])])
    rfl rfl

/-! ## Lemmas on the request builder -/

theorem set_nil (k : String) (v : JSON) : JSONMap.set [] k v = [(k, v)] := rfl

theorem set_cons (k1 : String) (v1 : JSON) (rest : JSONMap) (k : String) (v : JSON) :
    JSONMap.set ((k1, v1) :: rest) k v
      = if k1 = k then (k, v) :: rest else (k1, v1) :: JSONMap.set rest k v := rfl

theorem index_nil (k : String) : JSONMap.index [] k = none := rfl

theorem index_cons (k1 : String) (v1 : JSON) (rest : JSONMap) (k : String) :
    JSONMap.index ((k1, v1) :: rest) k = if k = k1 then some v1 else JSONMap.index rest k := by
  by_cases h : k = k1
  · subst h
    simp [JSONMap.index, List.lookup]
  · have hb : (k == k1) = false := beq_false_of_ne h
    simp [JSONMap.index, List.lookup, hb, h]

theorem body_nested_steps (sb sr db dc : String) (r t d m c : JSON)
    (next : JSONMap → Outcome JSON) :
    ((if sb ≠ "" then
        setNested [("source", .obj []), ("destination", .obj []), ("reviewers", r),
          ("title", t), ("description", d), ("message", m), ("close_source_branch", c)]
          "source" "branch" (.obj [("name", .str sb)])
      else .ok [("source", .obj []), ("destination", .obj []), ("reviewers", r),
          ("title", t), ("description", d), ("message", m), ("close_source_branch", c)]).andThen
      fun body =>
    (if sr ≠ "" then setNested body "source" "repository" (.obj [("full_name", .str sr)])
      else .ok body).andThen fun body =>
    (if db ≠ "" then setNested body "destination" "branch" (.obj [("name", .str db)])
      else .ok body).andThen fun body =>
    (if dc ≠ "" then setNested body "destination" "commit" (.obj [("hash", .str dc)])
      else .ok body).andThen next)
    = next [("source", .obj ((if sb ≠ "" then [("branch", JSON.obj [("name", .str sb)])] else [])
              ++ (if sr ≠ "" then [("repository", JSON.obj [("full_name", .str sr)])] else []))),
            ("destination", .obj ((if db ≠ "" then [("branch", JSON.obj [("name", .str db)])]
                else [])
              ++ (if dc ≠ "" then [("commit", JSON.obj [("hash", .str dc)])] else []))),
            ("reviewers", r), ("title", t), ("description", d), ("message", m),
            ("close_source_branch", c)] := by
  by_cases h1 : sb = "" <;> by_cases h2 : sr = "" <;> by_cases h3 : db = "" <;>
    by_cases h4 : dc = "" <;>
    simp [h1, h2, h3, h4, setNested, Outcome.andThen, index_cons, index_nil, set_cons, set_nil]

theorem body_scalar_steps (s dst r : JSON) (t d m : String) (c dr : Bool) :
    (let body : JSONMap := [("source", s), ("destination", dst), ("reviewers", r),
        ("title", .str ""), ("description", .str ""), ("message", .str ""),
        ("close_source_branch", .bool false)]
     let body := if t ≠ "" then JSONMap.set body "title" (.str t) else body
     let body := if d ≠ "" then JSONMap.set body "description" (.str d) else body
     let body := if m ≠ "" then JSONMap.set body "message" (.str m) else body
     let body :=
       if c || !c then JSONMap.set body "close_source_branch" (.bool c) else body
     let body := if dr then JSONMap.set body "draft" (.bool true) else body
     jsonMarshal (.obj body))
    = .ok (.obj ([("source", s), ("destination", dst), ("reviewers", r), ("title", .str t),
        ("description", .str d), ("message", .str m), ("close_source_branch", .bool c)]
        ++ (if dr then [("draft", JSON.bool true)] else []))) := by
  by_cases h1 : t = "" <;> by_cases h2 : d = "" <;> by_cases h3 : m = "" <;>
    cases c <;> cases dr <;>
    simp [h1, h2, h3, jsonMarshal, set_cons, set_nil]

theorem buildPullRequestBody_eq (po : PullRequestOptions) :
    buildPullRequestBody po = .ok (.obj (bodyMembers po)) := by
  have hB : (if po.Reviewers.length > 0 then
        JSONMap.set [("source", .obj []), ("destination", .obj []), ("reviewers", .arr []),
          ("title", .str ""), ("description", .str ""), ("message", .str ""),
          ("close_source_branch", .bool false)] "reviewers"
          (.arr (po.Reviewers.map (fun uuid => JSON.obj [("uuid", .str uuid)])))
      else [("source", .obj []), ("destination", .obj []), ("reviewers", .arr []),
          ("title", .str ""), ("description", .str ""), ("message", .str ""),
          ("close_source_branch", .bool false)])
      = [("source", .obj []), ("destination", .obj []),
          ("reviewers", .arr (po.Reviewers.map (fun uuid => JSON.obj [("uuid", .str uuid)]))),
          ("title", .str ""), ("description", .str ""), ("message", .str ""),
          ("close_source_branch", .bool false)] := by
    cases h : po.Reviewers <;> simp [set_cons]
  have h0 : JSONMap.set (JSONMap.set (JSONMap.set (JSONMap.set (JSONMap.set (JSONMap.set
      (JSONMap.set [] "source" (.obj [])) "destination" (.obj [])) "reviewers" (.arr []))
      "title" (.str "")) "description" (.str "")) "message" (.str ""))
      "close_source_branch" (.bool false)
      = [("source", .obj []), ("destination", .obj []), ("reviewers", .arr []),
          ("title", .str ""), ("description", .str ""), ("message", .str ""),
          ("close_source_branch", .bool false)] := rfl
  unfold buildPullRequestBody
  simp only [h0, hB]
  rw [body_nested_steps]
  exact body_scalar_steps _ _ _ _ _ _ _ _

/-! ## The claims on the request builder -/

/-- C11: for options with no reviewers, no source or destination branch,
repository or commit, empty title, description and message, and
`CloseSourceBranch` and `Draft` false, `buildPullRequestBody` succeeds with
the object of exactly the members `source` and `destination` empty objects,
`reviewers` the empty array, `title`, `description`, `message` empty strings
and `close_source_branch` false; it has no `draft`. -/
theorem default_body (po : PullRequestOptions)
    (hreviewers : po.Reviewers = []) (hsb : po.SourceBranch = "")
    (hsr : po.SourceRepository = "") (hdb : po.DestinationBranch = "")
    (hdc : po.DestinationCommit = "") (htitle : po.Title = "")
    (hdescription : po.Description = "") (hmessage : po.Message = "")
    (hclose : po.CloseSourceBranch = false) (hdraft : po.Draft = false) :
    buildPullRequestBody po
      = .ok (.obj [("source", .obj []), ("destination", .obj []), ("reviewers", .arr []),
          ("title", .str ""), ("description", .str ""), ("message", .str ""),
          ("close_source_branch", .bool false)])
    ∧ JSONMap.index [("source", .obj []), ("destination", .obj []), ("reviewers", .arr []),
          ("title", .str ""), ("description", .str ""), ("message", .str ""),
          ("close_source_branch", .bool false)] "draft" = none := by
  refine ⟨?_, rfl⟩
  rw [buildPullRequestBody_eq]
  simp [bodyMembers, sourceMembers, destinationMembers, hreviewers, hsb, hsr, hdb, hdc, htitle,
    hdescription, hmessage, hclose, hdraft]

/-- Witness of C11: options that supply an owner and a repository slug and
nothing else. -/
theorem default_body_witness :
    buildPullRequestBody emptyOptions
      = .ok (.obj [("source", .obj []), ("destination", .obj []), ("reviewers", .arr []),
          ("title", .str ""), ("description", .str ""), ("message", .str ""),
          ("close_source_branch", .bool false)]) :=
  (default_body emptyOptions rfl rfl rfl rfl rfl rfl rfl rfl rfl rfl).1

/-- C12: for every list of reviewer identifiers, the empty one included, the
`reviewers` member of the body built by `buildPullRequestBody` is the array
of the objects with the single member `uuid`, one for each identifier, in the
order of the list. -/
theorem reviewers_mapped (po : PullRequestOptions) :
    ∃ body, buildPullRequestBody po = .ok (.obj body)
      ∧ JSONMap.index body "reviewers"
        = some (.arr (po.Reviewers.map (fun uuid => JSON.obj [("uuid", .str uuid)]))) := by
  refine ⟨_, buildPullRequestBody_eq po, ?_⟩
  simp [bodyMembers, index_cons]

/-- C13: in the body built by `buildPullRequestBody`, the `source` object
holds `branch` with the single member `name` exactly when `SourceBranch` is
not empty, then `repository` with the single member `full_name` exactly when
`SourceRepository` is not empty, and nothing else; the `destination` object
holds `branch` exactly when `DestinationBranch` is not empty, then `commit`
with the single member `hash` exactly when `DestinationCommit` is not empty,
and nothing else. -/
theorem nested_members (po : PullRequestOptions) :
    ∃ body, buildPullRequestBody po = .ok (.obj body)
      ∧ JSONMap.index body "source"
        = some (.obj ((if po.SourceBranch ≠ "" then
              [("branch", JSON.obj [("name", .str po.SourceBranch)])] else [])
            ++ (if po.SourceRepository ≠ "" then
              [("repository", JSON.obj [("full_name", .str po.SourceRepository)])] else [])))
      ∧ JSONMap.index body "destination"
        = some (.obj ((if po.DestinationBranch ≠ "" then
              [("branch", JSON.obj [("name", .str po.DestinationBranch)])] else [])
            ++ (if po.DestinationCommit ≠ "" then
              [("commit", JSON.obj [("hash", .str po.DestinationCommit)])] else []))) := by
  refine ⟨_, buildPullRequestBody_eq po, ?_, ?_⟩
  · simp [bodyMembers, index_cons, sourceMembers]
  · simp [bodyMembers, index_cons, destinationMembers]

/-- C14: for every options value, the body built by `buildPullRequestBody`
has the member `draft` exactly when `Draft` is true, and its value is then
true; `close_source_branch`, `title`, `description` and `message` are always
there and hold the values of the options. -/
theorem draft_only_when_true (po : PullRequestOptions) :
    ∃ body, buildPullRequestBody po = .ok (.obj body)
      ∧ (po.Draft = true → JSONMap.index body "draft" = some (.bool true))
      ∧ (po.Draft = false → JSONMap.index body "draft" = none)
      ∧ JSONMap.index body "close_source_branch" = some (.bool po.CloseSourceBranch)
      ∧ JSONMap.index body "title" = some (.str po.Title)
      ∧ JSONMap.index body "description" = some (.str po.Description)
      ∧ JSONMap.index body "message" = some (.str po.Message) := by
  refine ⟨_, buildPullRequestBody_eq po, ?_, ?_, ?_, ?_, ?_, ?_⟩
  · intro h
    simp [bodyMembers, index_cons, index_nil, h]
  · intro h
    simp [bodyMembers, index_cons, index_nil, h]
  · simp [bodyMembers, index_cons]
  · simp [bodyMembers, index_cons]
  · simp [bodyMembers, index_cons]
  · simp [bodyMembers, index_cons]

/-- C15: for every comment options value, `buildPullRequestCommentBody`
succeeds with an object whose first member is `content`, the object with the
single member `raw` holding `Content`; when `Parent` points to `p` the only
other member is `parent`, the object with the single member `id` holding
`p`, and when `Parent` is nil there is no other member. -/
theorem comment_body (co : PullRequestCommentOptions) :
    buildPullRequestCommentBody co
      = .ok (.obj ([("content", JSON.obj [("raw", .str co.Content)])]
          ++ (match co.Parent with
              | some p => [("parent", JSON.obj [("id", .num p)])]
              | none => []))) := by
  unfold buildPullRequestCommentBody
  cases co.Parent <;> rfl

/-! ## Lemmas on the list decoders and on the query -/

theorem decodeEntries_panic {α : Type} (dec : JSON → Outcome α) (pre post : List JSON)
    (v : JSON) (msg : String) (acc : List α)
    (hpre : ∀ w ∈ pre, ∀ msg1, dec w ≠ .panic msg1) (hv : dec v = .panic msg) :
    decodeEntries dec (pre ++ v :: post) acc = .panic msg := by
  induction pre generalizing acc with
  | nil => simp [decodeEntries, hv]
  | cons w pre ih =>
    have hw := hpre w (List.mem_cons_self w pre)
    have hrest : ∀ u ∈ pre, ∀ msg1, dec u ≠ .panic msg1 :=
      fun u hu => hpre u (List.mem_cons_of_mem w hu)
    rw [List.cons_append]
    unfold decodeEntries
    cases hd : dec w with
    | ok item => simp [ih _ hrest]
    | error e => simp [ih _ hrest]
    | panic msg1 => exact absurd hd (hw msg1)

theorem decodePullRequests_non_object (E : Env) (v : JSON) (h : ∀ o, v ≠ .obj o) :
    decodePullRequests E v
      = .panic "interface conversion: interface is not map[string]interface {}" := by
  cases v with
  | obj o => exact absurd rfl (h o)
  | null => rfl
  | bool b => rfl
  | num x => rfl
  | str s => rfl
  | arr xs => rfl

theorem decodePullRequestsComments_non_object (v : JSON) (h : ∀ o, v ≠ .obj o) :
    decodePullRequestsComments v
      = .panic "interface conversion: interface is not map[string]interface {}" := by
  cases v with
  | obj o => exact absurd rfl (h o)
  | null => rfl
  | bool b => rfl
  | num x => rfl
  | str s => rfl
  | arr xs => rfl

theorem decodeCommentsMap_error (m : JSONMap) (f : String)
    (hf : f ∈ commentsFields) (h : commentsMessages m f ≠ []) :
    ∃ errs, decodeCommentsMap m = .error errs := by
  have hne : ¬ (stepMessages (decodeString "Owner") (fieldData m "Owner")
      ++ stepMessages (decodeString "RepoSlug") (fieldData m "RepoSlug")
      ++ stepMessages (decodeInt "PullRequestID") (fieldData m "PullRequestID")
      ++ stepMessages decodeContentStruct (fieldData m "Content")
      ++ stepMessages (decodeInt "id") (fieldData m "id")
      ++ stepMessages (decodePtr (decodeInt "Parent")) (fieldData m "Parent") = []) := by
    intro hnil
    simp only [List.append_eq_nil] at hnil
    apply h
    simp only [commentsFields, List.mem_cons, List.mem_singleton, List.not_mem_nil,
      or_false] at hf
    rcases hf with rfl | rfl | rfl | rfl | rfl | rfl <;> simp [commentsMessages, hnil]
  unfold decodeCommentsMap
  simp only [errorsOf_decodeField]
  rw [if_neg hne]
  exact ⟨_, rfl⟩

theorem decodePullRequestsComments_error (m : JSONMap) (f : String)
    (hf : f ∈ commentsFields) (h : commentsMessages m f ≠ []) :
    ∃ err, decodePullRequestsComments (.obj m) = .error err := by
  obtain ⟨errs, he⟩ := decodeCommentsMap_error m f hf h
  by_cases hm : isErrorMarker m = true
  · exact ⟨DecodeError m, by simp [decodePullRequestsComments, hm]⟩
  · exact ⟨.mapstructure errs, by simp [decodePullRequestsComments, hm, he]⟩

theorem filter_Set (q : Values) (k v : String) :
    (Values.Set q k v).filter (fun kv => kv.1 != k) = q.filter (fun kv => kv.1 != k) := by
  simp [Values.Set, List.filter_cons, List.filter_filter]

theorem foldl_Set_last (k : String) (init : List String) (sn : String) (q : Values) :
    (init ++ [sn]).foldl (fun q state => Values.Set q k state) q
      = (k, [sn]) :: q.filter (fun kv => kv.1 != k) := by
  have hfilter : ∀ (l : List String) (q : Values),
      (l.foldl (fun q state => Values.Set q k state) q).filter (fun kv => kv.1 != k)
        = q.filter (fun kv => kv.1 != k) := by
    intro l
    induction l with
    | nil => intro q; rfl
    | cons a l ih =>
      intro q
      rw [List.foldl_cons, ih, filter_Set]
  rw [List.foldl_append, List.foldl_cons, List.foldl_nil]
  show (k, [sn]) :: (List.foldl (fun q state => Values.Set q k state) q init).filter
    (fun kv => kv.1 != k) = _
  rw [hfilter]

theorem all_Set_same (q : Values) (k v : String) : Values.all (Values.Set q k v) k = [v] := by
  simp [Values.all, Values.Set, List.filter_cons, List.filter_filter]

theorem all_Set_other (q : Values) (k v k2 : String) (h : k ≠ k2) :
    Values.all (Values.Set q k v) k2 = Values.all q k2 := by
  have hb : (k == k2) = false := beq_false_of_ne h
  have hfil : (q.filter (fun kv => kv.1 != k)).filter (fun kv => kv.1 == k2)
      = q.filter (fun kv => kv.1 == k2) := by
    rw [List.filter_filter]
    congr 1
    funext kv
    by_cases hk : kv.1 = k2
    · subst hk
      have : (kv.1 != k) = true := by
        simp [bne_iff_ne]
        exact fun hh => h hh.symm
      simp [this]
    · simp [hk]
  simp [Values.all, Values.Set, List.filter_cons, hb, hfil]

theorem PullRequests_List_eq (c : Client) (po : PullRequestsOptions) (log : List Request)
    (hstates : po.States ≠ []) :
    PullRequests_List c po log
      = match c.urlParse (listBase c po) with
        | .error err => (.error err, log)
        | .ok query =>
          (c.executePaginated log
              { method := "GET", url := .built (listBase c po) (listQuery po query), body := "" },
            log ++ [{ method := "GET", url := .built (listBase c po) (listQuery po query),
                      body := "" }]) := by
  have hbase : c.apiBaseURL ++ "/repositories/" ++ PathEscape po.Owner ++ "/"
      ++ PathEscape po.RepoSlug ++ "/pullrequests/" = listBase c po := rfl
  unfold PullRequests_List
  simp only [hstates, ne_eq, not_false_eq_true, if_true, editQuery, hbase]
  cases hp : c.urlParse (listBase c po) with
  | error err => rfl
  | ok query =>
    by_cases hq : po.Query = "" <;> by_cases hs : po.SortKey = "" <;>
      simp [hq, hs, editQuery, listQuery]


theorem stepMessages_string_wrong (name : String) (v : JSON) (hnull : v ≠ .null)
    (h : ∀ s, v ≠ .str s) : stepMessages (decodeString name) (some v) ≠ [] := by
  cases v with
  | null => exact absurd rfl hnull
  | str s => exact absurd rfl (h s)
  | bool b => simp [stepMessages, decodeString, errorsOf]
  | num x => simp [stepMessages, decodeString, errorsOf]
  | arr xs => simp [stepMessages, decodeString, errorsOf]
  | obj o => simp [stepMessages, decodeString, errorsOf]

theorem stepMessages_bool_wrong (name : String) (v : JSON) (hnull : v ≠ .null)
    (h : ∀ b, v ≠ .bool b) : stepMessages (decodeBool name) (some v) ≠ [] := by
  cases v with
  | null => exact absurd rfl hnull
  | bool b => exact absurd rfl (h b)
  | str s => simp [stepMessages, decodeBool, errorsOf]
  | num x => simp [stepMessages, decodeBool, errorsOf]
  | arr xs => simp [stepMessages, decodeBool, errorsOf]
  | obj o => simp [stepMessages, decodeBool, errorsOf]

theorem stepMessages_int_wrong (name : String) (v : JSON) (hnull : v ≠ .null)
    (h : ∀ x, v ≠ .num x) : stepMessages (decodeInt name) (some v) ≠ [] := by
  cases v with
  | null => exact absurd rfl hnull
  | num x => exact absurd rfl (h x)
  | str s => simp [stepMessages, decodeInt, errorsOf]
  | bool b => simp [stepMessages, decodeInt, errorsOf]
  | arr xs => simp [stepMessages, decodeInt, errorsOf]
  | obj o => simp [stepMessages, decodeInt, errorsOf]

theorem stepMessages_ptr_wrong (name : String) (v : JSON) (hnull : v ≠ .null)
    (h : ∀ x, v ≠ .num x) : stepMessages (decodePtr (decodeInt name)) (some v) ≠ [] := by
  cases v with
  | null => exact absurd rfl hnull
  | num x => exact absurd rfl (h x)
  | str s => simp [stepMessages, decodePtr, decodeInt, errorsOf]
  | bool b => simp [stepMessages, decodePtr, decodeInt, errorsOf]
  | arr xs => simp [stepMessages, decodePtr, decodeInt, errorsOf]
  | obj o => simp [stepMessages, decodePtr, decodeInt, errorsOf]

theorem stepMessages_content_wrong (v : JSON) (hnull : v ≠ .null)
    (h : ∀ o, v ≠ .obj o) : stepMessages decodeContentStruct (some v) ≠ [] := by
  cases v with
  | null => exact absurd rfl hnull
  | obj o => exact absurd rfl (h o)
  | str s => simp [stepMessages, decodeContentStruct, errorsOf]
  | bool b => simp [stepMessages, decodeContentStruct, errorsOf]
  | arr xs => simp [stepMessages, decodeContentStruct, errorsOf]
  | num x => simp [stepMessages, decodeContentStruct, errorsOf]

theorem all_listQuery (po : PullRequestsOptions) (init : List String) (sn : String)
    (hstates : po.States = init ++ [sn]) (query : Values) :
    Values.all (listQuery po query) "state" = [sn] := by
  have h1 : Values.all
      (po.States.foldl (fun q state => Values.Set q "state" state) query) "state" = [sn] := by
    rw [hstates, foldl_Set_last]
    exact all_Set_same query "state" sn
  unfold listQuery
  by_cases hq : po.Query = "" <;> by_cases hs : po.SortKey = "" <;>
    simp [hq, hs, h1, all_Set_other]

/-! ## The claims on absent and malformed input and on the states -/

/-- C16, on the code: for every mapping without a `values` key both list
decoders panic: the type assertion on `values` is unchecked, and the nil
interface of the missing key is not a slice. -/
theorem list_decoders_panic_without_values (E : Env) (m : JSONMap)
    (h : JSONMap.index m "values" = none) :
    decodePullRequestsList E (.obj m)
      = .panic "interface conversion: interface is not []interface {}"
    ∧ decodePullRequestsCommentsList (.obj m)
      = .panic "interface conversion: interface is not []interface {}" := by
  constructor
  · simp only [decodePullRequestsList, h]
  · simp only [decodePullRequestsCommentsList, h]

/-- Witness of C16, on the code: a page envelope that has its pagination
members and no `values`. -/
theorem list_decoders_panic_without_values_witness :
    decodePullRequestsList sampleEnv
        (.obj [("page", .num 1), ("pagelen", .num 10), ("size", .num 0)])
      = .panic "interface conversion: interface is not []interface {}"
    ∧ decodePullRequestsCommentsList
        (.obj [("page", .num 1), ("pagelen", .num 10), ("size", .num 0)])
      = .panic "interface conversion: interface is not []interface {}" :=
  list_decoders_panic_without_values sampleEnv
    [("page", .num 1), ("pagelen", .num 10), ("size", .num 0)] rfl

/-- C17, on the code: when the `values` array holds, after any number of
objects, an element that is not an object, both list decoders panic: the
item decoders assert unchecked that their argument is a map.  The elements
before it and after it are lost. -/
theorem list_decoders_panic_on_non_object (E : Env) (m : JSONMap) (pre post : List JSON)
    (v : JSON)
    (hvalues : JSONMap.index m "values" = some (.arr (pre ++ v :: post)))
    (hpre : ∀ w ∈ pre, ∃ o, w = .obj o) (hv : ∀ o, v ≠ .obj o) :
    decodePullRequestsList E (.obj m)
      = .panic "interface conversion: interface is not map[string]interface {}"
    ∧ decodePullRequestsCommentsList (.obj m)
      = .panic "interface conversion: interface is not map[string]interface {}" := by
  constructor
  · have hp := decodeEntries_panic (decodePullRequests E) pre post v _ []
      (fun w hw msg1 => by
        obtain ⟨o, rfl⟩ := hpre w hw
        exact decodePullRequests_obj_ne_panic E o msg1)
      (decodePullRequests_non_object E v hv)
    simp only [decodePullRequestsList, hvalues, hp]
  · have hp := decodeEntries_panic decodePullRequestsComments pre post v _ []
      (fun w hw msg1 => by
        obtain ⟨o, rfl⟩ := hpre w hw
        exact decodePullRequestsComments_obj_ne_panic o msg1)
      (decodePullRequestsComments_non_object v hv)
    simp only [decodePullRequestsCommentsList, hvalues, hp]

/-- Witness of C17, on the code: a page whose `values` are an item, a string
and another item. -/
theorem list_decoders_panic_on_non_object_witness :
    decodePullRequestsList sampleEnv
        (.obj [("values", .arr ([JSON.obj [("id", .num 1)]] ++ JSON.str "x"
          :: [JSON.obj [("id", .num 2)]]))])
      = .panic "interface conversion: interface is not map[string]interface {}"
    ∧ decodePullRequestsCommentsList
        (.obj [("values", .arr ([JSON.obj [("id", .num 1)]] ++ JSON.str "x"
          :: [JSON.obj [("id", .num 2)]]))])
      = .panic "interface conversion: interface is not map[string]interface {}" :=
  list_decoders_panic_on_non_object sampleEnv
    [("values", .arr ([JSON.obj [("id", .num 1)]] ++ JSON.str "x"
      :: [JSON.obj [("id", .num 2)]]))]
    [JSON.obj [("id", .num 1)]] [JSON.obj [("id", .num 2)]] (.str "x") rfl
    (by
      intro w hw
      simp only [List.mem_singleton] at hw
      exact ⟨_, hw⟩)
    (fun _ ho => JSON.noConfusion ho)

/-- Counterexample to C18 as stated: objects without error marker in which
`id` is a string, `title` a number, `parent` a string or `id` an object, and
whose decode fails instead of leaving the field at its zero value. -/
theorem wrong_type_counterexample :
    decodePullRequests sampleEnv (.obj [("id", .str "123")])
      = .error (.mapstructure ["ID expected type int, got unconvertible type"])
    ∧ decodePullRequests sampleEnv (.obj [("id", .num 1), ("title", .num 5)])
      = .error (.mapstructure ["Title expected type string, got unconvertible type"])
    ∧ decodePullRequestsComments (.obj [("id", .num 1), ("parent", .str "2")])
      = .error (.mapstructure ["Parent expected type int, got unconvertible type"])
    ∧ decodePullRequestsComments (.obj [("id", .obj [])])
      = .error (.mapstructure ["id expected type int, got unconvertible type"]) :=
  ⟨rfl, rfl, rfl, rfl⟩

/-- C18, amended: a value `v` other than null that has the wrong JSON type
for the field it is matched to fails the item decode with an error and no
entity.  In `decodePullRequests`: anything but a number for `ID`, anything
but a string for `Title`, `Description`, `SourceCommit`, `DestinationCommit`,
`State`, `Commit`, anything but a boolean for `CloseSourceBranch`, `Draft`.
In `decodePullRequestsComments`: anything but a number for `PullRequestID`,
`id`, `Parent`, anything but a string for `Owner`, `RepoSlug`, anything but
an object for `Content`. -/
theorem wrong_type_fails (E : Env) (m : JSONMap) (v : JSON) (hnull : v ≠ .null) :
    (fieldData m "ID" = some v → (∀ x, v ≠ .num x) →
      ∃ err, decodePullRequests E (.obj m) = .error err)
    ∧ (∀ f ∈ ["Title", "Description", "SourceCommit", "DestinationCommit", "State", "Commit"],
        fieldData m f = some v → (∀ s, v ≠ .str s) →
        ∃ err, decodePullRequests E (.obj m) = .error err)
    ∧ (∀ f ∈ ["CloseSourceBranch", "Draft"],
        fieldData m f = some v → (∀ b, v ≠ .bool b) →
        ∃ err, decodePullRequests E (.obj m) = .error err)
    ∧ (∀ f ∈ ["PullRequestID", "id", "Parent"],
        fieldData m f = some v → (∀ x, v ≠ .num x) →
        ∃ err, decodePullRequestsComments (.obj m) = .error err)
    ∧ (∀ f ∈ ["Owner", "RepoSlug"],
        fieldData m f = some v → (∀ s, v ≠ .str s) →
        ∃ err, decodePullRequestsComments (.obj m) = .error err)
    ∧ (fieldData m "Content" = some v → (∀ o, v ≠ .obj o) →
        ∃ err, decodePullRequestsComments (.obj m) = .error err) := by
  refine ⟨?_, ?_, ?_, ?_, ?_, ?_⟩
  · intro hf hv
    apply decodePullRequests_error E m "ID" (by simp [pullRequestsFields])
    simp only [pullRequestsMessages, if_true, hf]
    exact stepMessages_int_wrong _ v hnull hv
  · intro f hmem hf hv
    have hin : f ∈ pullRequestsFields := by
      simp only [List.mem_cons, List.mem_singleton, List.not_mem_nil, or_false] at hmem
      rcases hmem with rfl | rfl | rfl | rfl | rfl | rfl <;> simp [pullRequestsFields]
    apply decodePullRequests_error E m f hin
    simp only [List.mem_cons, List.mem_singleton, List.not_mem_nil, or_false] at hmem
    rcases hmem with rfl | rfl | rfl | rfl | rfl | rfl <;>
      simp [pullRequestsMessages, hf] <;>
      exact stepMessages_string_wrong _ v hnull hv
  · intro f hmem hf hv
    have hin : f ∈ pullRequestsFields := by
      simp only [List.mem_cons, List.mem_singleton, List.not_mem_nil, or_false] at hmem
      rcases hmem with rfl | rfl <;> simp [pullRequestsFields]
    apply decodePullRequests_error E m f hin
    simp only [List.mem_cons, List.mem_singleton, List.not_mem_nil, or_false] at hmem
    rcases hmem with rfl | rfl <;>
      simp [pullRequestsMessages, hf] <;>
      exact stepMessages_bool_wrong _ v hnull hv
  · intro f hmem hf hv
    have hin : f ∈ commentsFields := by
      simp only [List.mem_cons, List.mem_singleton, List.not_mem_nil, or_false] at hmem
      rcases hmem with rfl | rfl | rfl <;> simp [commentsFields]
    apply decodePullRequestsComments_error m f hin
    simp only [List.mem_cons, List.mem_singleton, List.not_mem_nil, or_false] at hmem
    rcases hmem with rfl | rfl | rfl
    · simp [commentsMessages, hf]
      exact stepMessages_int_wrong _ v hnull hv
    · simp [commentsMessages, hf]
      exact stepMessages_int_wrong _ v hnull hv
    · simp [commentsMessages, hf]
      exact stepMessages_ptr_wrong _ v hnull hv
  · intro f hmem hf hv
    have hin : f ∈ commentsFields := by
      simp only [List.mem_cons, List.mem_singleton, List.not_mem_nil, or_false] at hmem
      rcases hmem with rfl | rfl <;> simp [commentsFields]
    apply decodePullRequestsComments_error m f hin
    simp only [List.mem_cons, List.mem_singleton, List.not_mem_nil, or_false] at hmem
    rcases hmem with rfl | rfl <;>
      simp [commentsMessages, hf] <;>
      exact stepMessages_string_wrong _ v hnull hv
  · intro hf hv
    refine decodePullRequestsComments_error m "Content" (by simp [commentsFields]) ?_
    simp [commentsMessages, hf]
    exact stepMessages_content_wrong v hnull hv

/-- Witness of C18, amended: a pull request whose `id` is a string and a
comment whose `parent` is an object. -/
theorem wrong_type_fails_witness :
    (∃ err, decodePullRequests sampleEnv (.obj [("id", .str "123")]) = .error err)
    ∧ (∃ err, decodePullRequestsComments
        (.obj [("id", .num 1), ("parent", .obj [("id", .num 5)])]) = .error err) :=
  ⟨(wrong_type_fails sampleEnv [("id", .str "123")] (.str "123")
      (fun h => JSON.noConfusion h)).1 rfl (fun _ h => JSON.noConfusion h),
   (wrong_type_fails sampleEnv [("id", .num 1), ("parent", .obj [("id", .num 5)])]
      (.obj [("id", .num 5)]) (fun h => JSON.noConfusion h)).2.2.2.1 "Parent"
      (by simp) rfl (fun _ h => JSON.noConfusion h)⟩

/-- C19: for every non-empty `States` list, with last element `sn`, every
request that `PullRequests.List` sends has a URL whose query binds `state` to
the single value `sn`; a request is sent whenever the URL parses; and the
call is the same whatever the states before the last are. -/
theorem List_state_is_last (c : Client) (po : PullRequestsOptions) (log : List Request)
    (init : List String) (sn : String) (hstates : po.States = init ++ [sn]) :
    (∀ req, (PullRequests_List c po log).2 = log ++ [req] →
      ∃ s q, req.url = .built s q ∧ Values.all q "state" = [sn])
    ∧ (∀ query, c.urlParse (listBase c po) = .ok query →
      ∃ req, (PullRequests_List c po log).2 = log ++ [req])
    ∧ (∀ init2, PullRequests_List c { po with States := init2 ++ [sn] } log
        = PullRequests_List c po log) := by
  have hne : po.States ≠ [] := by
    rw [hstates]
    simp
  refine ⟨?_, ?_, ?_⟩
  · intro req hreq
    rw [PullRequests_List_eq c po log hne] at hreq
    cases hp : c.urlParse (listBase c po) with
    | error err =>
      rw [hp] at hreq
      simp at hreq
    | ok query =>
      rw [hp] at hreq
      simp only [List.append_cancel_left_eq, List.cons.injEq, and_true] at hreq
      subst hreq
      exact ⟨_, _, rfl, all_listQuery po init sn hstates query⟩
  · intro query hp
    rw [PullRequests_List_eq c po log hne, hp]
    exact ⟨_, rfl⟩
  · intro init2
    have hq : ∀ query,
        listQuery { po with States := init2 ++ [sn] } query = listQuery po query := by
      intro query
      simp only [listQuery, hstates, foldl_Set_last]
    rw [PullRequests_List_eq c po log hne,
      PullRequests_List_eq c { po with States := init2 ++ [sn] } log (by simp)]
    have hb : listBase c { po with States := init2 ++ [sn] } = listBase c po := rfl
    rw [hb]
    cases c.urlParse (listBase c po) with
    | error err => rfl
    | ok query => simp only [hq]

/-- Witness of C19: three states and a query; the request carries
`state = DECLINED`, and is the one sent for `DECLINED` alone. -/
theorem List_state_is_last_witness :
    (∃ req s q, (PullRequests_List sampleClient threeStates []).2 = [] ++ [req]
      ∧ req.url = .built s q ∧ Values.all q "state" = ["DECLINED"])
    ∧ PullRequests_List sampleClient { threeStates with States := [] ++ ["DECLINED"] } []
        = PullRequests_List sampleClient threeStates [] := by
  obtain ⟨h1, h2, h3⟩ :=
    List_state_is_last sampleClient threeStates [] ["OPEN", "MERGED"] "DECLINED" rfl
  obtain ⟨req, hreq⟩ := h2 [] rfl
  obtain ⟨s, q, hu, hq⟩ := h1 req hreq
  exact ⟨⟨req, s, q, hreq, hu, hq⟩, h3 []⟩

/-- Witness of C12: the reviewers `u1`, `u2` of the specification. -/
theorem reviewers_mapped_witness :
    ∃ body, buildPullRequestBody fullOptions = .ok (.obj body)
      ∧ JSONMap.index body "reviewers"
        = some (.arr [JSON.obj [("uuid", .str "u1")], JSON.obj [("uuid", .str "u2")]]) :=
  reviewers_mapped fullOptions

/-- Witness of C13: every nested value supplied, and none supplied. -/
theorem nested_members_witness :
    (∃ body, buildPullRequestBody fullOptions = .ok (.obj body)
      ∧ JSONMap.index body "source"
        = some (.obj [("branch", JSON.obj [("name", .str "feature")]),
            ("repository", JSON.obj [("full_name", .str "owner/repo")])])
      ∧ JSONMap.index body "destination"
        = some (.obj [("branch", JSON.obj [("name", .str "main")]),
            ("commit", JSON.obj [("hash", .str "def456")])]))
    ∧ (∃ body, buildPullRequestBody emptyOptions = .ok (.obj body)
      ∧ JSONMap.index body "source" = some (.obj [])
      ∧ JSONMap.index body "destination" = some (.obj [])) :=
  ⟨nested_members fullOptions, nested_members emptyOptions⟩

/-- Witness of C14: a draft with every scalar supplied. -/
theorem draft_only_when_true_witness :
    ∃ body, buildPullRequestBody fullOptions = .ok (.obj body)
      ∧ JSONMap.index body "draft" = some (.bool true)
      ∧ JSONMap.index body "close_source_branch" = some (.bool true)
      ∧ JSONMap.index body "title" = some (.str "Test PR")
      ∧ JSONMap.index body "description" = some (.str "d")
      ∧ JSONMap.index body "message" = some (.str "m") := by
  obtain ⟨body, h, h1, _, h2, h3, h4, h5⟩ := draft_only_when_true fullOptions
  exact ⟨body, h, h1 rfl, h2, h3, h4, h5⟩

/-- Witness of C15: a reply to comment 123456, and a top-level comment. -/
theorem comment_body_witness :
    buildPullRequestCommentBody
        { Owner := "owner", RepoSlug := "repo", PullRequestID := "1", Content := "test",
          CommentId := "", Parent := some 123456 }
      = .ok (.obj [("content", JSON.obj [("raw", .str "test")]),
          ("parent", JSON.obj [("id", .num 123456)])])
    ∧ buildPullRequestCommentBody
        { Owner := "owner", RepoSlug := "repo", PullRequestID := "1", Content := "test",
          CommentId := "", Parent := none }
      = .ok (.obj [("content", JSON.obj [("raw", .str "test")])]) :=
  ⟨comment_body _, comment_body _⟩

end Bitbucket
